import Mathlib

/-!
# Verification of the EasyNQL core (src/easy_nql.py)

A shallow embedding of the EasyNQL natural-language-to-SQL orchestrator.
Python strings are modelled as Lean `String` (a wrapper around `List Char`);
the text-generation backend (ollama) and the database execution layer
(SQLAlchemy) are external collaborators and are modelled as oracle
functions supplied to each run.  Wall-clock timestamps are abstracted as an
opaque string parameter (`now`) and the elapsed-seconds float in the
response bundle as an opaque marker, since no claim computes with them.
-/

set_option maxRecDepth 20000
set_option maxHeartbeats 1000000

namespace EasyNQL

/-! ## Python string primitives

`pyStrip`, `pyUpper`, `before_semicolon` model `str.strip()`, `str.upper()`
and `s.split(";")[0]` for the (ASCII) strings this program handles.
`str.strip()` removes leading and trailing whitespace; `s.split(";")[0]` is
the text before the first `';'` (the whole string when none occurs). -/

def wsB (c : Char) : Bool := c.isWhitespace

/-- `str.strip()` on the character list: drop leading whitespace, then
trailing whitespace. -/
def trimChars (l : List Char) : List Char :=
  (((l.dropWhile wsB).reverse.dropWhile wsB)).reverse

def pyStrip (s : String) : String := ⟨trimChars s.data⟩

/-- `str.upper()` (ASCII). -/
def pyUpper (s : String) : String := ⟨s.data.map Char.toUpper⟩

/-- `s.split(";")[0]`: the text before the first statement terminator. -/
def before_semicolon (s : String) : String := ⟨s.data.takeWhile (fun c => c != ';')⟩

/-! ## Safety gate (`EasyNQL._is_safe_query`, easy_nql.py lines 376-388)

```python
query = query.split(";")[0]
if query.strip().upper().startswith("SELECT"):
    return query.strip()
raise ValueError("A non-SELECT query was generated. Please try again.")
``` -/

/-- Left trim only (leading whitespace). -/
def ltrimWS (l : List Char) : List Char := l.dropWhile wsB

/-- Right trim only (trailing whitespace). -/
def rtrimWS (l : List Char) : List Char := (l.reverse.dropWhile wsB).reverse

/-! ## Safety gate (`EasyNQL._is_safe_query`, easy_nql.py lines 376-388)

```python
query = query.split(";")[0]
if query.strip().upper().startswith("SELECT"):
    return query.strip()
raise ValueError("A non-SELECT query was generated. Please try again.")
``` -/

def unsafeQueryMsg : String := "A non-SELECT query was generated. Please try again."

def is_safe_query (query : String) : Except String String :=
  if "SELECT".data.isPrefixOf (pyUpper (pyStrip (before_semicolon query))).data then
    Except.ok (pyStrip (before_semicolon query))
  else
    Except.error unsafeQueryMsg

/-! ## Response cleaner (`EasyNQL._clear_llm_response`, easy_nql.py lines 364-374)

```python
response = response.replace(">>>", "")
lines = [line for line in response.split("\n") if not line.startswith("```")]
return "\n".join(lines)
```

`removeMarker` models `str.replace(">>>", "")`: scan left to right, removing
non-overlapping occurrences of the three-character marker.  `splitLines` and
`joinLines` model `str.split("\n")` and `"\n".join`; `startsFence` models
`line.startswith('```' + '')`. -/

def removeMarker : List Char → List Char
  | [] => []
  | [c] => [c]
  | [c, d] => [c, d]
  | c :: d :: e :: rest =>
    if c = '>' ∧ d = '>' ∧ e = '>' then removeMarker rest
    else c :: removeMarker (d :: e :: rest)

/-- `s.split("\n")` (Python semantics: `"".split("\n") == [""]`). -/
def splitLines : List Char → List (List Char)
  | [] => [[]]
  | c :: rest =>
    if c = '\n' then [] :: splitLines rest
    else
      match splitLines rest with
      | [] => [[c]]
      | l :: ls => (c :: l) :: ls

/-- `"\n".join(lines)`. -/
def joinLines : List (List Char) → List Char
  | [] => []
  | [l] => l
  | l :: ls => l ++ '\n' :: joinLines ls

/-- Python: `line.startswith("```")`. -/
def startsFence (l : List Char) : Bool := ['`', '`', '`'].isPrefixOf l

def clearList (l : List Char) : List Char :=
  joinLines ((splitLines (removeMarker l)).filter (fun ln => !startsFence ln))

def clear_llm_response (s : String) : String := ⟨clearList s.data⟩

/-- Scanner for a remaining occurrence of the `'>>>'` marker (specification
helper, not part of the source). -/
def hasTriple : List Char → Bool
  | [] => false
  | [_] => false
  | [_, _] => false
  | c :: d :: e :: rest => (c == '>' && d == '>' && e == '>') || hasTriple (d :: e :: rest)

/-- First two characters are both `'>'` (specification helper). -/
def gtPrefix2 : List Char → Bool
  | d :: e :: _ => d == '>' && e == '>'
  | _ => false

/-- First character is `'>'` (specification helper). -/
def headGt : List Char → Bool
  | c :: _ => c == '>'
  | _ => false

/-! ## Session state (`EasyNQL.__init__`, mutable fields)

Only the fields the core reads or writes are modelled: the schema text, the
declared database dialect, and the two mutable session fields
`natural_language_question` and `generated_query` (both `None` at
construction, easy_nql.py lines 64-65).  The model name, engine and logging
configuration play no role in any claim. -/

structure NQLState where
  schema_text : String
  database_type : String
  natural_language_question : Option String
  generated_query : Option String
deriving DecidableEq

/-- Python truthiness of an `Optional[str]`: `None` and `""` are falsy. -/
def pyTruthyOptStr : Option String → Bool
  | none => false
  | some s => !(s == "")

/-! ## Prompt construction

Exact transcriptions of the f-string templates (the triple-quoted literals
keep their 8-space internal indentation; `.strip()` removes only the leading
and trailing newline-plus-indent).  The `time.strftime(...)` timestamp is
abstracted as the parameter `now`. -/

/-- `f", specialized in {self.database_type}" if self.database_type else ""`. -/
def dialectClause (dbt : String) : String :=
  if dbt = "" then "" else ", specialized in " ++ dbt

/-- System prompt of `generate_sql` (easy_nql.py lines 122-125). -/
def genSystemPrompt (dbt : String) : String :=
  pyStrip ("\n        You are an expert SQL assistant" ++ dialectClause dbt ++ ". Convert natural language questions into SQL queries based on the provided database schema. Only provide the SQL query without explanations.\n        If the natural language question asks you to update, delete, or insert data, please ignore it.\n        ")

/-- User prompt of `generate_sql` (easy_nql.py lines 128-137). -/
def genUserPrompt (now schema question : String) : String :=
  pyStrip ("\n        Today is: \n        " ++ now ++ "\n\n        Database Schema:\n        " ++ schema ++ "\n\n        Question:\n        \"" ++ question ++ "\"\n        ")

/-- System prompt of `fix_error_message` (easy_nql.py lines 173-175). -/
def fixSystemPrompt (dbt : String) : String :=
  pyStrip ("\n        You are an expert SQL assistant" ++ dialectClause dbt ++ ". Try to fix the error in the SQL query based on the provided database schema. Only provide the SQL query without explanations. Don\x27t write anything more than the fixed query.\n        ")

/-- User prompt of `fix_error_message` (easy_nql.py lines 177-192). -/
def fixUserPrompt (now schema question error sql : String) : String :=
  pyStrip ("\n        Today is: \n        " ++ now ++ "\n\n        Database Schema:\n        " ++ schema ++ "\n\n        Question:\n        \"" ++ question ++ "\"\n\n        Error:\n        " ++ error ++ "\n\n        SQL Query:\n        " ++ sql ++ "\n        ")

/-! ## Query generator (`EasyNQL.generate_sql`, easy_nql.py lines 111-151)

The ollama backend is external; `respContent` stands for
`response.message.content`.  Note the order of effects in the source:
`self.natural_language_question` is set on entry (line 119),
`self.generated_query` is set to the RAW response content (line 147), and
only then is the response cleaned and gated, so both fields stay written
even when the gate raises. -/

def generate_sql (st : NQLState) (natural_language_question : String)
    (respContent : String) : NQLState × Except String String :=
  let st1 : NQLState :=
    { st with natural_language_question := some natural_language_question,
              generated_query := some respContent }
  match is_safe_query (clear_llm_response respContent) with
  | Except.ok q => (st1, Except.ok q)
  | Except.error e => (st1, Except.error e)

/-! ## Query repairer (`EasyNQL.fix_error_message`, easy_nql.py lines 153-206) -/

def missingQueryMsg : String :=
  "The sql_query parameter must be provided or a SQL query must be generated first."

def missingQuestionMsg : String :=
  "The question parameter must be provided or a natural language question must be generated first."

/-- `if not arg: ... arg = stored` with Python truthiness, then
`if not stored: raise` (`none` result = the missing-context `ValueError`). -/
def resolveArg (explicit stored : Option String) : Option String :=
  if pyTruthyOptStr explicit then explicit
  else if pyTruthyOptStr stored then stored
  else none

/-- Returns (unchanged session state, the user prompt sent to the backend
when the call got that far, the gated result or the raised error message).
The source contains no assignment to `self` fields. -/
def fix_error_message (st : NQLState) (error : String) (question sql_query : Option String)
    (respContent now : String) : NQLState × Option String × Except String String :=
  match resolveArg sql_query st.generated_query with
  | none => (st, none, Except.error missingQueryMsg)
  | some sql =>
    match resolveArg question st.natural_language_question with
    | none => (st, none, Except.error missingQuestionMsg)
    | some q =>
      match is_safe_query (clear_llm_response respContent) with
      | Except.ok fq =>
        (st, some (fixUserPrompt now st.schema_text q error sql), Except.ok fq)
      | Except.error e =>
        (st, some (fixUserPrompt now st.schema_text q error sql), Except.error e)

/-! ## Execution adapter and result formatter

`_execute_sql_query` (easy_nql.py lines 325-344) returns exactly one of
`(rows, column_names, None)` or `(None, None, error_text)`; the database
backend is external, so each call's outcome is an oracle value.  Cell
values are opaque (`PyVal`): the core never computes with them. -/

inductive PyVal where
  | pyNone : PyVal
  | pyStr : String → PyVal
  | pyFloat : String → PyVal
  | pyInt : Int → PyVal
deriving DecidableEq

inductive ExecOutcome where
  | success : List (List PyVal) → List String → ExecOutcome
  | failure : String → ExecOutcome
deriving DecidableEq

/-- `EasyNQL._format_results` (easy_nql.py lines 346-362).

```python
if not rows or not column_names:
    return "No results found."
result_list = []
for row in rows:
    row_data = {column_names[i]: row[i] for i in range(len(column_names))}
    result_list.append(row_data)
return result_list
```

A row shorter than `column_names` would raise `IndexError` in Python; the
embedding totalises that unreached case with a `pyNone` default. -/
def format_results (rows : Option (List (List PyVal))) (column_names : Option (List String)) :
    Sum String (List (List (String × PyVal))) :=
  match rows, column_names with
  | some rs, some cs =>
    if rs.isEmpty || cs.isEmpty then Sum.inl "No results found."
    else Sum.inr (rs.map (fun row =>
      (List.range cs.length).map (fun i => (cs.getD i "", row.getD i PyVal.pyNone))))
  | _, _ => Sum.inl "No results found."

/-! ## Retry orchestrator (`EasyNQL.chat`, easy_nql.py lines 208-279)

```python
error = None
rows, column_names = None, None
count_tries = 0
while count_tries < max_retries:
    rows, column_names, error = self._execute_sql_query(sql_query)
    if error:
        try:
            sql_query = self.fix_error_message(error)
        except ValueError as e:
            break
        count_tries += 1
    else:
        break
```

The loop state carries the Python locals plus an instrumentation trace: the
SQL strings passed to the execution adapter and, for each repair call, the
error argument, the user prompt that was sent, and the outcome.  The
execution oracle `execO` and the repair-response oracle `fixO` are indexed
by call number.  The `fuel` argument only bounds the recursion; `chat`
passes `fuel = max_retries`, which dominates the remaining iteration count
`max_retries - count_tries`, so every `while` iteration is simulated. -/

instance instDecEqExcept {ε α : Type} [DecidableEq ε] [DecidableEq α] :
    DecidableEq (Except ε α) := fun a b =>
  match a, b with
  | Except.ok x, Except.ok y =>
    if h : x = y then isTrue (congrArg Except.ok h)
    else isFalse (fun hc => h (by injection hc))
  | Except.error x, Except.error y =>
    if h : x = y then isTrue (congrArg Except.error h)
    else isFalse (fun hc => h (by injection hc))
  | Except.ok _, Except.error _ => isFalse (fun hc => Except.noConfusion hc)
  | Except.error _, Except.ok _ => isFalse (fun hc => Except.noConfusion hc)

structure FixCall where
  errorArg : String
  prompt : Option String
  result : Except String String
deriving DecidableEq

structure LoopState where
  sql_query : String
  rows : Option (List (List PyVal))
  cols : Option (List String)
  error : Option String
  count_tries : Nat
  execCalls : List String
  fixCalls : List FixCall
deriving DecidableEq

def chatLoop (st : NQLState) (execO : Nat → ExecOutcome) (fixO : Nat → String)
    (now : String) (max_retries : Nat) : Nat → LoopState → LoopState
  | 0, ls => ls
  | fuel + 1, ls =>
    if ls.count_tries < max_retries then
      match execO ls.execCalls.length with
      | ExecOutcome.success r c =>
        { ls with rows := some r, cols := some c, error := none,
                  execCalls := ls.execCalls ++ [ls.sql_query] }
      | ExecOutcome.failure e =>
        if e = "" then
          { ls with rows := none, cols := none, error := some e,
                    execCalls := ls.execCalls ++ [ls.sql_query] }
        else
          match fix_error_message st e none none (fixO ls.fixCalls.length) now with
          | (_, p, Except.error m) =>
            { ls with rows := none, cols := none, error := some e,
                      execCalls := ls.execCalls ++ [ls.sql_query],
                      fixCalls := ls.fixCalls ++ [⟨e, p, Except.error m⟩] }
          | (_, p, Except.ok fq) =>
            chatLoop st execO fixO now max_retries fuel
              { ls with sql_query := fq,
                        rows := none, cols := none, error := some e,
                        count_tries := ls.count_tries + 1,
                        execCalls := ls.execCalls ++ [ls.sql_query],
                        fixCalls := ls.fixCalls ++ [⟨e, p, Except.ok fq⟩] }
    else ls

/-! ## Chat response and terminal errors -/

inductive ChatError where
  | genFailure : String → ChatError
  | retryExhausted : String → ChatError
  | humanContextFailure : String → ChatError
deriving DecidableEq

inductive DictVal where
  | vStr : String → DictVal
  | vResults : Sum String (List (List (String × PyVal))) → DictVal
  | vTime : DictVal
  | vNat : Nat → DictVal
deriving DecidableEq

def genFailureMsg : String :=
  "Failed to generate a valid SQL query from the natural language question."

def humanCtxMsg : String :=
  "The natural_language_question parameter must be provided or a question must be generated first."

/-- The `err_msg` f-string of easy_nql.py lines 248-251. -/
def retryErrMsg (max_retries : Nat) (sql err : String) : String :=
  "The SQL query could not be executed after " ++ toString max_retries ++
    " attempts.\nLast generated query:\n" ++ sql ++ "\n\nError:\n" ++ err

/-- The returned dictionary (easy_nql.py lines 264-279), as an association
list so the key names are preserved; note the `human_response` branch uses
the key `"result"` while the other branch uses `"results"`.
`execution_time` is wall-clock and is abstracted as the opaque `vTime`. -/
def mkBundle (human : Bool) (sql : String)
    (qres : Sum String (List (List (String × PyVal)))) (answer : String)
    (retries : Nat) : List (String × DictVal) :=
  if human then
    [("query", DictVal.vStr sql), ("result", DictVal.vResults qres),
     ("answer", DictVal.vStr answer), ("execution_time", DictVal.vTime),
     ("retries", DictVal.vNat retries)]
  else
    [("query", DictVal.vStr sql), ("results", DictVal.vResults qres),
     ("execution_time", DictVal.vTime), ("retries", DictVal.vNat retries)]

structure ChatRun where
  result : Except ChatError (List (String × DictVal))
  finalState : NQLState
  execCalls : List String
  fixCalls : List FixCall

/-- The epilogue of `EasyNQL.chat` (easy_nql.py lines 247-279) as a function
of the state at loop exit: the exhausted-retries guard
(`if count_tries == max_retries and error:`), result formatting, the
optional human answer (whose missing-question guard propagates uncaught),
and the returned dictionary. -/
def chatAfterLoop (st : NQLState) (max_retries : Nat) (human_response : Bool)
    (humanResp : String) (ls : LoopState) : ChatRun :=
  if ls.count_tries = max_retries ∧ pyTruthyOptStr ls.error then
    ⟨Except.error (ChatError.retryExhausted
        (retryErrMsg max_retries ls.sql_query (ls.error.getD ""))),
      st, ls.execCalls, ls.fixCalls⟩
  else
    if human_response then
      if pyTruthyOptStr st.natural_language_question then
        ⟨Except.ok (mkBundle true ls.sql_query (format_results ls.rows ls.cols)
            humanResp ls.count_tries), st, ls.execCalls, ls.fixCalls⟩
      else
        ⟨Except.error (ChatError.humanContextFailure humanCtxMsg), st,
          ls.execCalls, ls.fixCalls⟩
    else
      ⟨Except.ok (mkBundle false ls.sql_query (format_results ls.rows ls.cols)
          humanResp ls.count_tries), st, ls.execCalls, ls.fixCalls⟩

/-- `EasyNQL.chat` (easy_nql.py lines 208-279).  `genResp` is the backend
response of the single `generate_sql` call, `humanResp` the response of the
optional `generate_human_response` call (whose own prompt construction is
irrelevant to every claim; its missing-question guard is modelled). -/
def chat (st0 : NQLState) (natural_language_question : String) (max_retries : Nat)
    (human_response : Bool) (genResp : String) (execO : Nat → ExecOutcome)
    (fixO : Nat → String) (humanResp now : String) : ChatRun :=
  match generate_sql st0 natural_language_question genResp with
  | (st, Except.error _) => ⟨Except.error (ChatError.genFailure genFailureMsg), st, [], []⟩
  | (st, Except.ok sql) =>
    chatAfterLoop st max_retries human_response humanResp
      (chatLoop st execO fixO now max_retries max_retries
        ⟨sql, none, none, none, 0, [], []⟩)

/-! ## Concrete instances used by witnesses and counterexamples -/

def exSt : NQLState :=
  { schema_text := "", database_type := "",
    natural_language_question := none, generated_query := none }

def exStOrders : NQLState :=
  { schema_text := "Table: orders\n- id\n- total", database_type := "",
    natural_language_question := none, generated_query := none }

def exExecFail : Nat → ExecOutcome := fun k =>
  match k with
  | 0 => ExecOutcome.failure "E1"
  | 1 => ExecOutcome.failure "E2"
  | _ => ExecOutcome.failure "E3"

def exFixResp : Nat → String := fun k =>
  match k with
  | 0 => "SELECT FIX1"
  | 1 => "SELECT FIX2"
  | _ => "SELECT FIX3"

def exExecOk : Nat → ExecOutcome := fun _ =>
  ExecOutcome.success [[PyVal.pyFloat "42.0"]] ["total"]

def exExecFailThenOk : Nat → ExecOutcome := fun k =>
  match k with
  | 0 => ExecOutcome.failure "E1"
  | _ => ExecOutcome.success [[PyVal.pyFloat "42.0"]] ["total"]

def exFixBad : Nat → String := fun _ => "DROP TABLE t"

def defaultFixCall : FixCall := ⟨"", none, Except.error ""⟩

/-- Specification predicate for C4: a read-only single-statement query —
after trimming it starts (case-insensitively) with `SELECT`, and it contains
no statement terminator. -/
def safeSql (q : String) : Prop :=
  "SELECT".data.isPrefixOf (pyUpper (pyStrip q)).data = true ∧ ';' ∉ q.data

theorem trimChars_eq_rl (l : List Char) : trimChars l = rtrimWS (ltrimWS l) := rfl

theorem dropWhile_append_not_all {p : Char → Bool} {a : List Char} (b : List Char)
    {x : Char} (hxa : x ∈ a) (hpx : p x = false) :
    List.dropWhile p (a ++ b) = List.dropWhile p a ++ b := by
  have hne : (List.dropWhile p a).isEmpty ≠ true := by
    intro hemp
    have hnil : List.dropWhile p a = [] := by
      cases hdw : List.dropWhile p a
      · rfl
      · rw [hdw] at hemp; simp at hemp
    have hx := List.dropWhile_eq_nil_iff.mp hnil x hxa
    rw [hpx] at hx
    exact Bool.false_ne_true hx
  rw [List.dropWhile_append, if_neg hne]

theorem dropWhile_append_all {p : Char → Bool} {a : List Char} (b : List Char)
    (h : ∀ x ∈ a, p x = true) :
    List.dropWhile p (a ++ b) = List.dropWhile p b := by
  have hc : (List.dropWhile p a).isEmpty = true := by
    rw [List.dropWhile_eq_nil_iff.mpr h]
    rfl
  rw [List.dropWhile_append, if_pos hc]

theorem dropWhile_dropWhile (p : Char → Bool) (l : List Char) :
    List.dropWhile p (List.dropWhile p l) = List.dropWhile p l := by
  induction l with
  | nil => rfl
  | cons c t ih =>
    by_cases h : p c
    · simp [List.dropWhile_cons, h, ih]
    · simp [List.dropWhile_cons, h]

theorem dropWhile_head_false {l t : List Char} {c : Char}
    (h : List.dropWhile wsB l = c :: t) : wsB c = false := by
  induction l generalizing t with
  | nil => simp at h
  | cons d r ih =>
    rw [List.dropWhile_cons] at h
    by_cases hd : wsB d
    · rw [if_pos hd] at h
      exact ih h
    · rw [if_neg hd] at h
      cases h
      simpa using hd

theorem rtrimWS_prefix_self (l : List Char) : rtrimWS l <+: l := by
  have h := (List.dropWhile_suffix (l := l.reverse) wsB).reverse
  rw [List.reverse_reverse] at h
  exact h

theorem rtrimWS_ne_nil {l : List Char} {x : Char} (hx : x ∈ l) (hw : wsB x = false) :
    rtrimWS l ≠ [] := by
  intro h
  rw [rtrimWS, List.reverse_eq_nil_iff, List.dropWhile_eq_nil_iff] at h
  have := h x (List.mem_reverse.mpr hx)
  rw [hw] at this
  simp at this

theorem ltrimWS_all_ws {l : List Char} (h : ∀ x ∈ l, wsB x = true) : ltrimWS l = [] :=
  List.dropWhile_eq_nil_iff.mpr h

theorem rtrimWS_all_ws {l : List Char} (h : ∀ x ∈ l, wsB x = true) : rtrimWS l = [] := by
  rw [rtrimWS, List.reverse_eq_nil_iff, List.dropWhile_eq_nil_iff]
  intro x hx
  exact h x (List.mem_reverse.mp hx)

theorem rtrimWS_append {u w : List Char} {x : Char} (hx : x ∈ w) (hw : wsB x = false) :
    rtrimWS (u ++ w) = u ++ rtrimWS w := by
  show (List.dropWhile wsB (u ++ w).reverse).reverse = u ++ (List.dropWhile wsB w.reverse).reverse
  rw [List.reverse_append, dropWhile_append_not_all u.reverse (List.mem_reverse.mpr hx) hw,
    List.reverse_append, List.reverse_reverse]

theorem rtrimWS_append_ws {u c : List Char} (h : ∀ y ∈ c, wsB y = true) :
    rtrimWS (u ++ c) = rtrimWS u := by
  show (List.dropWhile wsB (u ++ c).reverse).reverse = (List.dropWhile wsB u.reverse).reverse
  rw [List.reverse_append, dropWhile_append_all _ (fun y hy => h y (List.mem_reverse.mp hy))]

theorem ltrimWS_append_ws {u w : List Char} (h : ∀ x ∈ u, wsB x = true) :
    ltrimWS (u ++ w) = ltrimWS w :=
  dropWhile_append_all w h

theorem ltrimWS_append_not {u w : List Char} {x : Char} (hx : x ∈ u) (hw : wsB x = false) :
    ltrimWS (u ++ w) = ltrimWS u ++ w :=
  dropWhile_append_not_all w hx hw

theorem rtrimWS_eq_takeWhile_append (l : List Char) (h : ltrimWS l ≠ []) :
    rtrimWS l = List.takeWhile wsB l ++ trimChars l := by
  rcases hlt : ltrimWS l with _ | ⟨c, t⟩
  · exact absurd hlt h
  · have hc : wsB c = false := dropWhile_head_false hlt
    have hdecomp : l = List.takeWhile wsB l ++ ltrimWS l :=
      (List.takeWhile_append_dropWhile wsB l).symm
    calc rtrimWS l = rtrimWS (List.takeWhile wsB l ++ ltrimWS l) := by rw [← hdecomp]
      _ = List.takeWhile wsB l ++ rtrimWS (ltrimWS l) := by
          rw [rtrimWS_append (w := ltrimWS l) (x := c) (by rw [hlt]; exact List.mem_cons_self _ _) hc]
      _ = List.takeWhile wsB l ++ trimChars l := by rw [← trimChars_eq_rl]

theorem ltrimWS_cons_not_ws {c : Char} (s : List Char) (hc : wsB c = false) :
    ltrimWS (c :: s) = c :: s := by
  show List.dropWhile wsB (c :: s) = c :: s
  rw [List.dropWhile_cons, if_neg (by rw [hc]; simp)]

theorem ltrimWS_rtrimWS_comm (l : List Char) : ltrimWS (rtrimWS l) = trimChars l := by
  rcases hlt : ltrimWS l with _ | ⟨c, t⟩
  · have hall : ∀ x ∈ l, wsB x = true := List.dropWhile_eq_nil_iff.mp hlt
    rw [rtrimWS_all_ws hall, trimChars_eq_rl, hlt]
    rfl
  · have hc : wsB c = false := dropWhile_head_false hlt
    have hcm : c ∈ ltrimWS l := by rw [hlt]; exact List.mem_cons_self _ _
    have hrt : rtrimWS l = List.takeWhile wsB l ++ trimChars l :=
      rtrimWS_eq_takeWhile_append l (by rw [hlt]; simp)
    have hne : rtrimWS (ltrimWS l) ≠ [] := rtrimWS_ne_nil hcm hc
    have hpre : rtrimWS (ltrimWS l) <+: ltrimWS l := rtrimWS_prefix_self _
    rcases hr : rtrimWS (ltrimWS l) with _ | ⟨d, s⟩
    · exact absurd hr hne
    · have hds : d :: s <+: c :: t := by rw [hr, hlt] at hpre; exact hpre
      have hdc : d = c := (List.cons_prefix_cons.mp hds).1
      have htcr : trimChars l = d :: s := by rw [trimChars_eq_rl, hr]
      rw [hrt, ltrimWS_append_ws (fun x hx => List.mem_takeWhile_imp hx), htcr,
        ltrimWS_cons_not_ws s (by rw [hdc]; exact hc)]

theorem rtrimWS_idem (l : List Char) : rtrimWS (rtrimWS l) = rtrimWS l := by
  show ((((l.reverse.dropWhile wsB).reverse).reverse.dropWhile wsB)).reverse =
    (l.reverse.dropWhile wsB).reverse
  rw [List.reverse_reverse, dropWhile_dropWhile]

theorem ltrimWS_idem (l : List Char) : ltrimWS (ltrimWS l) = ltrimWS l :=
  dropWhile_dropWhile wsB l

theorem trimChars_idem (l : List Char) : trimChars (trimChars l) = trimChars l := by
  have h1 : ltrimWS (trimChars l) = trimChars l := by
    rw [trimChars_eq_rl l, ltrimWS_rtrimWS_comm (ltrimWS l), trimChars_eq_rl (ltrimWS l),
      ltrimWS_idem]
  calc trimChars (trimChars l)
      = rtrimWS (ltrimWS (trimChars l)) := trimChars_eq_rl _
    _ = rtrimWS (trimChars l) := by rw [h1]
    _ = rtrimWS (rtrimWS (ltrimWS l)) := by rw [trimChars_eq_rl l]
    _ = rtrimWS (ltrimWS l) := rtrimWS_idem _
    _ = trimChars l := (trimChars_eq_rl l).symm

theorem trimChars_infix_self (l : List Char) : trimChars l <:+: l := by
  rw [trimChars_eq_rl]
  exact (rtrimWS_prefix_self (ltrimWS l)).isInfix.trans (List.dropWhile_suffix wsB).isInfix

theorem trimChars_subset (l : List Char) : trimChars l ⊆ l := fun _ hc =>
  (trimChars_infix_self l).subset hc

theorem trimChars_eq_nil {l : List Char} (h : trimChars l = []) : ∀ x ∈ l, wsB x = true := by
  intro x hx
  rw [trimChars_eq_rl, rtrimWS, List.reverse_eq_nil_iff, List.dropWhile_eq_nil_iff] at h
  rcases (List.mem_append.mp ((List.takeWhile_append_dropWhile wsB l).symm ▸ hx)) with hx1 | hx2
  · exact List.mem_takeWhile_imp hx1
  · exact h x (List.mem_reverse.mpr hx2)

theorem trimChars_append_append {a b c : List Char}
    {x : Char} (hxa : x ∈ a) (hxw : wsB x = false)
    {y : Char} (hyc : y ∈ c) (hyw : wsB y = false) :
    trimChars (a ++ b ++ c) = ltrimWS a ++ b ++ rtrimWS c := by
  have key : trimChars (a ++ (b ++ c)) = ltrimWS a ++ b ++ rtrimWS c := by
    calc trimChars (a ++ (b ++ c))
        = rtrimWS (ltrimWS (a ++ (b ++ c))) := trimChars_eq_rl _
      _ = rtrimWS (ltrimWS a ++ (b ++ c)) := by rw [ltrimWS_append_not hxa hxw]
      _ = rtrimWS (ltrimWS a ++ b ++ c) := by rw [List.append_assoc (ltrimWS a) b c]
      _ = ltrimWS a ++ b ++ rtrimWS c := rtrimWS_append hyc hyw
  rw [List.append_assoc a b c]
  exact key

theorem infix_trimChars_middle {a b c : List Char}
    {x : Char} (hxa : x ∈ a) (hxw : wsB x = false)
    {y : Char} (hyc : y ∈ c) (hyw : wsB y = false) :
    b <:+: trimChars (a ++ b ++ c) := by
  rw [trimChars_append_append hxa hxw hyc hyw]
  exact ⟨ltrimWS a, rtrimWS c, rfl⟩

theorem trim_infix_trimChars_left {a b c : List Char}
    {x : Char} (hxa : x ∈ a) (hxw : wsB x = false) :
    trimChars b <:+: trimChars (a ++ b ++ c) := by
  by_cases hy : ∃ y ∈ c, wsB y = false
  · rcases hy with ⟨y, hyc, hyw⟩
    exact (trimChars_infix_self b).trans (infix_trimChars_middle hxa hxw hyc hyw)
  · have hcall : ∀ y ∈ c, wsB y = true := by
      intro y hyc
      by_contra hcon
      exact hy ⟨y, hyc, by revert hcon; cases wsB y <;> simp⟩
    by_cases hz : ∃ z ∈ b, wsB z = false
    · rcases hz with ⟨z, hzb, hzw⟩
      have h4 : rtrimWS b = List.takeWhile wsB b ++ trimChars b :=
        rtrimWS_eq_takeWhile_append b (by
          intro hnil
          have hzz := List.dropWhile_eq_nil_iff.mp hnil z hzb
          rw [hzw] at hzz
          exact Bool.false_ne_true hzz)
      have key : trimChars (a ++ (b ++ c)) =
          (ltrimWS a ++ List.takeWhile wsB b) ++ trimChars b ++ [] := by
        calc trimChars (a ++ (b ++ c))
            = rtrimWS (ltrimWS (a ++ (b ++ c))) := trimChars_eq_rl _
          _ = rtrimWS (ltrimWS a ++ (b ++ c)) := by rw [ltrimWS_append_not hxa hxw]
          _ = rtrimWS (ltrimWS a ++ b ++ c) := by rw [List.append_assoc (ltrimWS a) b c]
          _ = rtrimWS (ltrimWS a ++ b) := rtrimWS_append_ws hcall
          _ = ltrimWS a ++ rtrimWS b := rtrimWS_append hzb hzw
          _ = ltrimWS a ++ (List.takeWhile wsB b ++ trimChars b) := by rw [h4]
          _ = (ltrimWS a ++ List.takeWhile wsB b) ++ trimChars b ++ [] := by
                simp [List.append_assoc]
      have hgoal : trimChars b <:+: trimChars (a ++ (b ++ c)) := by
        rw [key]
        exact ⟨ltrimWS a ++ List.takeWhile wsB b, [], rfl⟩
      rw [List.append_assoc a b c]
      exact hgoal
    · have hball : ∀ z ∈ b, wsB z = true := by
        intro z hzb
        by_contra hcon
        exact hz ⟨z, hzb, by revert hcon; cases wsB z <;> simp⟩
      have hnil : trimChars b = [] := by
        rw [trimChars_eq_rl, ltrimWS_all_ws hball]
        rfl
      rw [hnil]
      exact ⟨[], trimChars (a ++ b ++ c), rfl⟩

/-! ## Lemmas about the response cleaner -/

theorem hasTriple_cons (c : Char) (l : List Char) :
    hasTriple (c :: l) = ((c == '>' && gtPrefix2 l) || hasTriple l) := by
  match l with
  | [] => simp [hasTriple, gtPrefix2]
  | [d] => simp [hasTriple, gtPrefix2]
  | d :: e :: rest =>
    show ((c == '>' && d == '>' && e == '>') || hasTriple (d :: e :: rest)) =
      ((c == '>' && (d == '>' && e == '>')) || hasTriple (d :: e :: rest))
    rw [Bool.and_assoc]

theorem gtPrefix2_cons (d : Char) (l : List Char) :
    gtPrefix2 (d :: l) = (d == '>' && headGt l) := by
  match l with
  | [] => simp [gtPrefix2, headGt]
  | e :: rest => rfl

theorem headGt_removeMarker {l : List Char} (h : headGt l = false) :
    headGt (removeMarker l) = false := by
  match l with
  | [] => exact h
  | [c] => exact h
  | [c, d] => exact h
  | c :: d :: e :: rest =>
    by_cases htr : c = '>' ∧ d = '>' ∧ e = '>'
    · exfalso
      rw [show headGt (c :: d :: e :: rest) = (c == '>') from rfl, htr.1] at h
      simp at h
    · show headGt (if c = '>' ∧ d = '>' ∧ e = '>' then removeMarker rest
        else c :: removeMarker (d :: e :: rest)) = false
      rw [if_neg htr]
      exact h

theorem gtPrefix2_removeMarker {l : List Char} (h : gtPrefix2 l = false) :
    gtPrefix2 (removeMarker l) = false := by
  match l with
  | [] => exact h
  | [c] => exact h
  | [c, d] => exact h
  | c :: d :: e :: rest =>
    have hgp : gtPrefix2 (c :: d :: e :: rest) = (c == '>' && d == '>') := rfl
    by_cases htr : c = '>' ∧ d = '>' ∧ e = '>'
    · exfalso
      rw [hgp, htr.1, htr.2.1] at h
      simp at h
    · show gtPrefix2 (if c = '>' ∧ d = '>' ∧ e = '>' then removeMarker rest
        else c :: removeMarker (d :: e :: rest)) = false
      rw [if_neg htr, gtPrefix2_cons]
      by_cases hc : c = '>'
      · have hd : (d == '>') = false := by
          rw [hgp] at h
          rcases Bool.and_eq_false_iff.mp h with h1 | h2
          · exfalso; rw [hc] at h1; simp at h1
          · exact h2
        have hh : headGt (removeMarker (d :: e :: rest)) = false :=
          headGt_removeMarker (by
            rw [show headGt (d :: e :: rest) = (d == '>') from rfl]
            exact hd)
        rw [hh]
        simp
      · simp [hc]

theorem hasTriple_removeMarker : ∀ l : List Char, hasTriple (removeMarker l) = false
  | [] => rfl
  | [_] => rfl
  | [_, _] => rfl
  | c :: d :: e :: rest => by
    by_cases htr : c = '>' ∧ d = '>' ∧ e = '>'
    · show hasTriple (if c = '>' ∧ d = '>' ∧ e = '>' then removeMarker rest
        else c :: removeMarker (d :: e :: rest)) = false
      rw [if_pos htr]
      exact hasTriple_removeMarker rest
    · show hasTriple (if c = '>' ∧ d = '>' ∧ e = '>' then removeMarker rest
        else c :: removeMarker (d :: e :: rest)) = false
      rw [if_neg htr, hasTriple_cons, hasTriple_removeMarker (d :: e :: rest)]
      by_cases hc : c = '>'
      · have hde : gtPrefix2 (d :: e :: rest) = false := by
          show (d == '>' && e == '>') = false
          by_cases hd : d = '>'
          · by_cases he : e = '>'
            · exact absurd ⟨hc, hd, he⟩ htr
            · simp [he]
          · simp [hd]
        rw [gtPrefix2_removeMarker hde]
        simp
      · simp [hc]

theorem removeMarker_eq_self : ∀ {l : List Char}, hasTriple l = false → removeMarker l = l
  | [], _ => rfl
  | [_], _ => rfl
  | [_, _], _ => rfl
  | c :: d :: e :: rest, h => by
    have hrec : hasTriple (d :: e :: rest) = false := by
      rw [hasTriple_cons] at h
      exact (Bool.or_eq_false_iff.mp h).2
    have htr : ¬ (c = '>' ∧ d = '>' ∧ e = '>') := by
      rintro ⟨h1, h2, h3⟩
      rw [show hasTriple (c :: d :: e :: rest) =
        ((c == '>' && d == '>' && e == '>') || hasTriple (d :: e :: rest)) from rfl,
        h1, h2, h3] at h
      simp at h
    show (if c = '>' ∧ d = '>' ∧ e = '>' then removeMarker rest
      else c :: removeMarker (d :: e :: rest)) = c :: d :: e :: rest
    rw [if_neg htr, removeMarker_eq_self hrec]

theorem splitLines_ne_nil (l : List Char) : splitLines l ≠ [] := by
  match l with
  | [] => simp [splitLines]
  | c :: rest =>
    show (if c = '\n' then [] :: splitLines rest
      else match splitLines rest with
        | [] => [[c]]
        | l :: ls => (c :: l) :: ls) ≠ []
    by_cases h : c = '\n'
    · rw [if_pos h]; simp
    · rw [if_neg h]
      cases hsp : splitLines rest with
      | nil => exact List.cons_ne_nil _ _
      | cons m ms => exact List.cons_ne_nil _ _

theorem splitLines_no_newline : ∀ (l : List Char), ∀ ln ∈ splitLines l, '\n' ∉ ln
  | [] => by
    intro ln hln
    rw [show splitLines [] = [[]] from rfl] at hln
    simp at hln
    simp [hln]
  | c :: rest => by
    intro ln hln
    have ih := splitLines_no_newline rest
    rw [show splitLines (c :: rest) = (if c = '\n' then [] :: splitLines rest
      else match splitLines rest with
        | [] => [[c]]
        | l :: ls => (c :: l) :: ls) from rfl] at hln
    by_cases h : c = '\n'
    · rw [if_pos h] at hln
      rcases List.mem_cons.mp hln with h1 | h2
      · rw [h1]; simp
      · exact ih ln h2
    · rw [if_neg h] at hln
      cases hsp : splitLines rest with
      | nil => exact absurd hsp (splitLines_ne_nil rest)
      | cons m ms =>
        rw [hsp] at hln
        rcases List.mem_cons.mp hln with h1 | h2
        · rw [h1]
          intro hmem
          rcases List.mem_cons.mp hmem with h3 | h4
          · exact h h3.symm
          · exact ih m (by rw [hsp]; exact List.mem_cons_self _ _) h4
        · exact ih ln (by rw [hsp]; exact List.mem_cons_of_mem _ h2)

theorem splitLines_of_no_newline : ∀ {a : List Char}, '\n' ∉ a → splitLines a = [a]
  | [], _ => rfl
  | c :: rest, h => by
    have hc : ¬ (c = '\n') := by
      intro he
      exact h (by rw [he]; exact List.mem_cons_self _ _)
    have hr : '\n' ∉ rest := fun hm => h (List.mem_cons_of_mem _ hm)
    show (if c = '\n' then [] :: splitLines rest
      else match splitLines rest with
        | [] => [[c]]
        | l :: ls => (c :: l) :: ls) = [c :: rest]
    rw [if_neg hc, splitLines_of_no_newline hr]

theorem splitLines_append_newline : ∀ {a : List Char}, '\n' ∉ a →
    ∀ (t : List Char), splitLines (a ++ '\n' :: t) = a :: splitLines t
  | [], _, t => by
    show (if ('\n' : Char) = '\n' then [] :: splitLines t
      else match splitLines t with
        | [] => [['\n']]
        | l :: ls => ('\n' :: l) :: ls) = [] :: splitLines t
    rw [if_pos rfl]
  | c :: a2, h, t => by
    have hc : ¬ (c = '\n') := by
      intro he
      exact h (by rw [he]; exact List.mem_cons_self _ _)
    have hr : '\n' ∉ a2 := fun hm => h (List.mem_cons_of_mem _ hm)
    show (if c = '\n' then [] :: splitLines (a2 ++ '\n' :: t)
      else match splitLines (a2 ++ '\n' :: t) with
        | [] => [[c]]
        | l :: ls => (c :: l) :: ls) = (c :: a2) :: splitLines t
    rw [if_neg hc, splitLines_append_newline hr t]

theorem splitLines_joinLines : ∀ {ls : List (List Char)}, ls ≠ [] →
    (∀ ln ∈ ls, '\n' ∉ ln) → splitLines (joinLines ls) = ls
  | [], h, _ => absurd rfl h
  | [a], _, hln => by
    show splitLines a = [a]
    exact splitLines_of_no_newline (hln a (List.mem_cons_self _ _))
  | a :: b :: ls, _, hln => by
    show splitLines (a ++ '\n' :: joinLines (b :: ls)) = a :: b :: ls
    rw [splitLines_append_newline (hln a (List.mem_cons_self _ _)) _,
      splitLines_joinLines (by simp) (fun ln hl => hln ln (List.mem_cons_of_mem _ hl))]

theorem gtPrefix2_append_newline : ∀ (a t : List Char),
    gtPrefix2 (a ++ '\n' :: t) = gtPrefix2 a
  | [], t => by
    cases t with
    | nil => rfl
    | cons x xs =>
      show (('\n' : Char) == '>' && x == '>') = false
      simp [show (('\n' : Char) == '>') = false from rfl]
  | [d], t => by
    show (d == '>' && ('\n' : Char) == '>') = gtPrefix2 [d]
    simp [show (('\n' : Char) == '>') = false from rfl, gtPrefix2]
  | d :: e :: a2, t => rfl

theorem hasTriple_append_newline : ∀ (a t : List Char),
    hasTriple (a ++ '\n' :: t) = (hasTriple a || hasTriple t)
  | [], t => by
    show hasTriple ('\n' :: t) = (false || hasTriple t)
    rw [hasTriple_cons]
    simp [show (('\n' : Char) == '>') = false from rfl]
  | c :: a2, t => by
    show hasTriple (c :: (a2 ++ '\n' :: t)) = (hasTriple (c :: a2) || hasTriple t)
    rw [hasTriple_cons, hasTriple_cons, hasTriple_append_newline a2 t,
      gtPrefix2_append_newline a2 t, Bool.or_assoc]

theorem hasTriple_joinLines : ∀ {ls : List (List Char)},
    (∀ ln ∈ ls, hasTriple ln = false) → hasTriple (joinLines ls) = false
  | [], _ => rfl
  | [a], h => h a (List.mem_cons_self _ _)
  | a :: b :: ls, h => by
    show hasTriple (a ++ '\n' :: joinLines (b :: ls)) = false
    rw [hasTriple_append_newline, h a (List.mem_cons_self _ _),
      hasTriple_joinLines (fun ln hl => h ln (List.mem_cons_of_mem _ hl))]
    rfl

theorem splitLines_head_headGt : ∀ (x : List Char) (m : List Char) (ms : List (List Char)),
    splitLines x = m :: ms → headGt m = true → headGt x = true := by
  intro x m ms hsp hm
  match x with
  | [] =>
    rw [show splitLines [] = [[]] from rfl] at hsp
    cases hsp
    simp [headGt] at hm
  | c :: rest =>
    rw [show splitLines (c :: rest) = (if c = '\n' then [] :: splitLines rest
      else match splitLines rest with
        | [] => [[c]]
        | l :: ls => (c :: l) :: ls) from rfl] at hsp
    by_cases hc : c = '\n'
    · rw [if_pos hc] at hsp
      cases hsp
      simp [headGt] at hm
    · rw [if_neg hc] at hsp
      cases hsp2 : splitLines rest with
      | nil => exact absurd hsp2 (splitLines_ne_nil rest)
      | cons l2 ls2 =>
        rw [hsp2] at hsp
        cases hsp
        exact hm

theorem splitLines_head_gtPrefix2 : ∀ (x : List Char) (m : List Char) (ms : List (List Char)),
    splitLines x = m :: ms → gtPrefix2 m = true → gtPrefix2 x = true := by
  intro x m ms hsp hm
  match x with
  | [] =>
    rw [show splitLines [] = [[]] from rfl] at hsp
    cases hsp
    simp [gtPrefix2] at hm
  | c :: rest =>
    rw [show splitLines (c :: rest) = (if c = '\n' then [] :: splitLines rest
      else match splitLines rest with
        | [] => [[c]]
        | l :: ls => (c :: l) :: ls) from rfl] at hsp
    by_cases hc : c = '\n'
    · rw [if_pos hc] at hsp
      cases hsp
      simp [gtPrefix2] at hm
    · rw [if_neg hc] at hsp
      cases hsp2 : splitLines rest with
      | nil => exact absurd hsp2 (splitLines_ne_nil rest)
      | cons l2 ls2 =>
        rw [hsp2] at hsp
        injection hsp with hql hqs
        rw [← hql, gtPrefix2_cons] at hm
        rcases Bool.and_eq_true_iff.mp hm with ⟨h1, h2⟩
        have h3 : headGt rest = true := splitLines_head_headGt rest l2 ls2 hsp2 h2
        rw [gtPrefix2_cons, h1, h3]
        rfl

theorem splitLines_hasTriple : ∀ (x : List Char), hasTriple x = false →
    ∀ ln ∈ splitLines x, hasTriple ln = false
  | [] => by
    intro _ ln hln
    rw [show splitLines [] = [[]] from rfl] at hln
    simp at hln
    rw [hln]
    rfl
  | c :: rest => by
    intro h ln hln
    have hrest : hasTriple rest = false := by
      rw [hasTriple_cons] at h
      exact (Bool.or_eq_false_iff.mp h).2
    have ih := splitLines_hasTriple rest hrest
    rw [show splitLines (c :: rest) = (if c = '\n' then [] :: splitLines rest
      else match splitLines rest with
        | [] => [[c]]
        | l :: ls => (c :: l) :: ls) from rfl] at hln
    by_cases hc : c = '\n'
    · rw [if_pos hc] at hln
      rcases List.mem_cons.mp hln with h1 | h2
      · rw [h1]; rfl
      · exact ih ln h2
    · rw [if_neg hc] at hln
      cases hsp : splitLines rest with
      | nil => exact absurd hsp (splitLines_ne_nil rest)
      | cons m ms =>
        rw [hsp] at hln
        rcases List.mem_cons.mp hln with h1 | h2
        · rw [h1, hasTriple_cons]
          have hm : hasTriple m = false := ih m (by rw [hsp]; exact List.mem_cons_self _ _)
          rw [hm]
          by_cases hgt : gtPrefix2 m = true
          · have hgr : gtPrefix2 rest = true := splitLines_head_gtPrefix2 rest m ms hsp hgt
            rw [hasTriple_cons] at h
            have h1b := (Bool.or_eq_false_iff.mp h).1
            rw [hgr] at h1b
            simp at h1b
            simp [h1b]
          · have hgf : gtPrefix2 m = false := by revert hgt; cases gtPrefix2 m <;> simp
            simp [hgf]
        · exact ih ln (by rw [hsp]; exact List.mem_cons_of_mem _ h2)

theorem clearList_no_triple (l : List Char) : hasTriple (clearList l) = false := by
  apply hasTriple_joinLines
  intro ln hln
  exact splitLines_hasTriple (removeMarker l) (hasTriple_removeMarker l) ln
    (List.mem_of_mem_filter hln)

theorem clearList_idem (l : List Char) : clearList (clearList l) = clearList l := by
  have hrm : removeMarker (clearList l) = clearList l :=
    removeMarker_eq_self (clearList_no_triple l)
  cases hF : (splitLines (removeMarker l)).filter (fun ln => !startsFence ln) with
  | nil =>
    have h1 : clearList l = [] := by rw [clearList, hF]; rfl
    rw [h1]
    rfl
  | cons f fs =>
    have hjoin : clearList l =
        joinLines ((splitLines (removeMarker l)).filter (fun ln => !startsFence ln)) := rfl
    have hsp : splitLines (clearList l) =
        (splitLines (removeMarker l)).filter (fun ln => !startsFence ln) := by
      rw [hjoin, hF]
      rw [splitLines_joinLines (by simp) (fun ln hl => splitLines_no_newline (removeMarker l)
        ln (List.mem_of_mem_filter (hF ▸ hl)))]
    show joinLines ((splitLines (removeMarker (clearList l))).filter
      (fun ln => !startsFence ln)) = clearList l
    rw [hrm, hsp, List.filter_filter]
    simp only [Bool.and_self]
    rfl

theorem splitLines_clearList (l : List Char)
    (h : (splitLines (removeMarker l)).filter (fun ln => !startsFence ln) ≠ []) :
    splitLines (clearList l) =
      (splitLines (removeMarker l)).filter (fun ln => !startsFence ln) := by
  show splitLines (joinLines ((splitLines (removeMarker l)).filter
    (fun ln => !startsFence ln))) = _
  exact splitLines_joinLines h (fun ln hl => splitLines_no_newline (removeMarker l) ln
    (List.mem_of_mem_filter hl))

/-- C9: the response cleaner `_clear_llm_response` is idempotent; no
occurrence of the stray marker `'>>>'` survives it; its output lines are
exactly the non-code-fence lines of the marker-free text, in order; and it
maps the fenced block `"```sql\nSELECT 1\n```"` to `"SELECT 1"`.  (Being a
total function, it never fails.) -/
theorem response_cleaner_contract :
    (∀ s : String, clear_llm_response (clear_llm_response s) = clear_llm_response s) ∧
    (∀ s : String, hasTriple (clear_llm_response s).data = false) ∧
    (∀ s : String,
      splitLines (clear_llm_response s).data =
          (splitLines (removeMarker s.data)).filter (fun ln => !startsFence ln) ∨
        (splitLines (removeMarker s.data)).filter (fun ln => !startsFence ln) = []) ∧
    clear_llm_response "```sql\nSELECT 1\n```" = "SELECT 1" := by
  refine ⟨?_, ?_, ?_, by decide⟩
  · intro s
    show (⟨clearList (clear_llm_response s).data⟩ : String) = ⟨clearList s.data⟩
    rw [show (clear_llm_response s).data = clearList s.data from rfl, clearList_idem]
  · intro s
    exact clearList_no_triple s.data
  · intro s
    by_cases hF : (splitLines (removeMarker s.data)).filter (fun ln => !startsFence ln) = []
    · right
      exact hF
    · left
      exact splitLines_clearList s.data hF

/-! ## Lemmas about the safety gate -/

theorem takeWhile_eq_self_of_all {p : Char → Bool} : ∀ {l : List Char},
    (∀ x ∈ l, p x = true) → List.takeWhile p l = l
  | [], _ => rfl
  | c :: t, h => by
    rw [List.takeWhile_cons, if_pos (h c (List.mem_cons_self _ _)),
      takeWhile_eq_self_of_all (fun x hx => h x (List.mem_cons_of_mem _ hx))]

theorem pyStrip_idem (s : String) : pyStrip (pyStrip s) = pyStrip s := by
  show (⟨trimChars (pyStrip s).data⟩ : String) = ⟨trimChars s.data⟩
  rw [show (pyStrip s).data = trimChars s.data from rfl, trimChars_idem]

theorem before_semicolon_no_semi (s : String) : ';' ∉ (before_semicolon s).data := by
  intro hmem
  have hh := List.mem_takeWhile_imp hmem
  simp at hh

theorem is_safe_query_ok {s q : String} (h : is_safe_query s = Except.ok q) :
    q = pyStrip (before_semicolon s) ∧
    "SELECT".data.isPrefixOf (pyUpper (pyStrip q)).data = true ∧
    ';' ∉ q.data := by
  rw [is_safe_query] at h
  by_cases hc : "SELECT".data.isPrefixOf (pyUpper (pyStrip (before_semicolon s))).data = true
  · rw [if_pos hc] at h
    injection h with hq
    refine ⟨hq.symm, ?_, ?_⟩
    · rw [← hq, pyStrip_idem]
      exact hc
    · rw [← hq]
      intro hm
      exact before_semicolon_no_semi s ((trimChars_subset (before_semicolon s).data) hm)
  · rw [if_neg hc] at h
    exact Except.noConfusion h

theorem is_safe_query_all_ws {s : String} (h : pyStrip s = "") :
    is_safe_query s = Except.error unsafeQueryMsg := by
  have hdata : trimChars s.data = [] := by
    have hd : (pyStrip s).data = ("" : String).data := by rw [h]
    exact hd
  have hall : ∀ x ∈ s.data, wsB x = true := trimChars_eq_nil hdata
  have hbs : before_semicolon s = s := by
    show (⟨s.data.takeWhile (fun c => c != ';')⟩ : String) = s
    rw [takeWhile_eq_self_of_all (fun x hx => ?_)]
    have hxw := hall x hx
    have hne : x ≠ ';' := by
      intro he
      rw [he] at hxw
      exact absurd hxw (by decide)
    simp [hne]
  have hcond : "SELECT".data.isPrefixOf (pyUpper (pyStrip s)).data = false := by
    rw [h]
    rfl
  rw [is_safe_query, hbs, if_neg (by simp [hcond])]

/-- C2: the safety gate `_is_safe_query` succeeds iff the text before the
first `';'` (all of the input when none occurs), trimmed and upper-cased,
starts with `SELECT`; on success it returns exactly that trimmed text; any
input that is empty after trimming is rejected with the unsafe-query error;
`"select * from t;drop table t"` is gated to `"select * from t"` and
`"DELETE FROM t"` is rejected. -/
theorem safety_gate_contract :
    (∀ S : String, (∃ q, is_safe_query S = Except.ok q) ↔
        "SELECT".data.isPrefixOf (pyUpper (pyStrip (before_semicolon S))).data = true) ∧
    (∀ S q, is_safe_query S = Except.ok q → q = pyStrip (before_semicolon S)) ∧
    (∀ S, pyStrip S = "" → is_safe_query S = Except.error unsafeQueryMsg) ∧
    is_safe_query "select * from t;drop table t" = Except.ok "select * from t" ∧
    is_safe_query "DELETE FROM t" = Except.error unsafeQueryMsg := by
  refine ⟨?_, ?_, ?_, by decide, by decide⟩
  · intro S
    constructor
    · rintro ⟨q, hq⟩
      by_cases hc :
        "SELECT".data.isPrefixOf (pyUpper (pyStrip (before_semicolon S))).data = true
      · exact hc
      · rw [is_safe_query, if_neg hc] at hq
        exact Except.noConfusion hq
    · intro hc
      exact ⟨pyStrip (before_semicolon S), by rw [is_safe_query, if_pos hc]⟩
  · intro S q h
    exact (is_safe_query_ok h).1
  · intro S h
    exact is_safe_query_all_ws h

/-- Closed instance of `safety_gate_contract`: the all-whitespace input
`"   "` trims to empty and is rejected by the gate. -/
theorem safety_gate_contract_witness :
    pyStrip "   " = "" ∧ is_safe_query "   " = Except.error unsafeQueryMsg :=
  ⟨by decide, safety_gate_contract.2.2.1 "   " (by decide)⟩

/-! ## Lemmas about generate_sql and fix_error_message -/

theorem gate_ok_resp_ne_empty {resp q : String}
    (h : is_safe_query (clear_llm_response resp) = Except.ok q) : resp ≠ "" := by
  intro he
  rw [he, show is_safe_query (clear_llm_response "") = Except.error unsafeQueryMsg
    from by decide] at h
  exact Except.noConfusion h

theorem fix_error_message_in_chat {st : NQLState} {gq nq : String}
    (hg : st.generated_query = some gq) (hg2 : gq ≠ "")
    (hn : st.natural_language_question = some nq) (hn2 : nq ≠ "")
    (e resp now : String) :
    fix_error_message st e none none resp now =
      (st, some (fixUserPrompt now st.schema_text nq e gq),
        is_safe_query (clear_llm_response resp)) := by
  have h1 : resolveArg none st.generated_query = some gq := by
    rw [resolveArg, hg]
    simp [pyTruthyOptStr, hg2]
  have h2 : resolveArg none st.natural_language_question = some nq := by
    rw [resolveArg, hn]
    simp [pyTruthyOptStr, hn2]
  rw [fix_error_message, h1]
  simp only []
  rw [h2]
  simp only []
  cases is_safe_query (clear_llm_response resp) <;> rfl

/-! ## Unfolding lemmas for the retry loop -/

theorem chatLoop_zero (st : NQLState) (execO : Nat → ExecOutcome) (fixO : Nat → String)
    (now : String) (maxR : Nat) (ls : LoopState) :
    chatLoop st execO fixO now maxR 0 ls = ls := rfl

theorem chatLoop_done {maxR : Nat} {ls : LoopState}
    (st : NQLState) (execO : Nat → ExecOutcome) (fixO : Nat → String)
    (now : String) (fuel : Nat) (h : ¬ ls.count_tries < maxR) :
    chatLoop st execO fixO now maxR (fuel + 1) ls = ls := by
  rw [chatLoop, if_neg h]

theorem chatLoop_step_success {maxR : Nat} {ls : LoopState}
    {execO : Nat → ExecOutcome} {r : List (List PyVal)} {c : List String}
    (st : NQLState) (fixO : Nat → String) (now : String) (fuel : Nat)
    (hlt : ls.count_tries < maxR)
    (he : execO ls.execCalls.length = ExecOutcome.success r c) :
    chatLoop st execO fixO now maxR (fuel + 1) ls =
      { ls with rows := some r, cols := some c, error := none,
                execCalls := ls.execCalls ++ [ls.sql_query] } := by
  rw [chatLoop, if_pos hlt, he]

theorem chatLoop_step_empty_error {maxR : Nat} {ls : LoopState}
    {execO : Nat → ExecOutcome}
    (st : NQLState) (fixO : Nat → String) (now : String) (fuel : Nat)
    (hlt : ls.count_tries < maxR)
    (he : execO ls.execCalls.length = ExecOutcome.failure "") :
    chatLoop st execO fixO now maxR (fuel + 1) ls =
      { ls with rows := none, cols := none, error := some "",
                execCalls := ls.execCalls ++ [ls.sql_query] } := by
  rw [chatLoop, if_pos hlt, he]
  simp only []
  rw [if_pos trivial]

theorem chatLoop_step_fix_fail {maxR : Nat} {ls : LoopState}
    {execO : Nat → ExecOutcome} {fixO : Nat → String} {now : String}
    {e m : String} {P : Option String}
    (st : NQLState) (fuel : Nat)
    (hlt : ls.count_tries < maxR)
    (he : execO ls.execCalls.length = ExecOutcome.failure e)
    (hne : ¬ (e = ""))
    (hfx : fix_error_message st e none none (fixO ls.fixCalls.length) now =
      (st, P, Except.error m)) :
    chatLoop st execO fixO now maxR (fuel + 1) ls =
      { ls with rows := none, cols := none, error := some e,
                execCalls := ls.execCalls ++ [ls.sql_query],
                fixCalls := ls.fixCalls ++ [⟨e, P, Except.error m⟩] } := by
  rw [chatLoop, if_pos hlt, he]
  simp only []
  rw [if_neg hne, hfx]

theorem chatLoop_step_fix_ok {maxR : Nat} {ls : LoopState}
    {execO : Nat → ExecOutcome} {fixO : Nat → String} {now : String}
    {e fq : String} {P : Option String}
    (st : NQLState) (fuel : Nat)
    (hlt : ls.count_tries < maxR)
    (he : execO ls.execCalls.length = ExecOutcome.failure e)
    (hne : ¬ (e = ""))
    (hfx : fix_error_message st e none none (fixO ls.fixCalls.length) now =
      (st, P, Except.ok fq)) :
    chatLoop st execO fixO now maxR (fuel + 1) ls =
      chatLoop st execO fixO now maxR fuel
        { ls with sql_query := fq, rows := none, cols := none, error := some e,
                  count_tries := ls.count_tries + 1,
                  execCalls := ls.execCalls ++ [ls.sql_query],
                  fixCalls := ls.fixCalls ++ [⟨e, P, Except.ok fq⟩] } := by
  rw [chatLoop, if_pos hlt, he]
  simp only []
  rw [if_neg hne, hfx]

/-! ## General facts about fix_error_message -/

theorem fix_fst (st : NQLState) (e : String) (question sql_query : Option String)
    (resp now : String) :
    (fix_error_message st e question sql_query resp now).1 = st := by
  rw [fix_error_message]
  cases resolveArg sql_query st.generated_query with
  | none => rfl
  | some sql =>
    simp only []
    cases resolveArg question st.natural_language_question with
    | none => rfl
    | some q =>
      simp only []
      cases is_safe_query (clear_llm_response resp) with
      | ok fq => rfl
      | error m => rfl

theorem fix_ok_is_gate {st : NQLState} {e : String} {question sql_query : Option String}
    {resp now fq : String}
    (h : (fix_error_message st e question sql_query resp now).2.2 = Except.ok fq) :
    is_safe_query (clear_llm_response resp) = Except.ok fq := by
  rw [fix_error_message] at h
  cases hr1 : resolveArg sql_query st.generated_query with
  | none =>
    rw [hr1] at h
    simp only [] at h
    exact Except.noConfusion h
  | some sql =>
    rw [hr1] at h
    simp only [] at h
    cases hr2 : resolveArg question st.natural_language_question with
    | none =>
      rw [hr2] at h
      simp only [] at h
      exact Except.noConfusion h
    | some q =>
      rw [hr2] at h
      simp only [] at h
      cases hgq : is_safe_query (clear_llm_response resp) with
      | ok fq2 =>
        rw [hgq] at h
        simp only [] at h
        simpa using h
      | error m =>
        rw [hgq] at h
        simp only [] at h
        exact h

/-! ## The all-errors run: the loop spends its whole budget -/

theorem chatLoop_all_fail
    {st : NQLState} {gq nq : String}
    (hg : st.generated_query = some gq) (hg2 : gq ≠ "")
    (hn : st.natural_language_question = some nq) (hn2 : nq ≠ "")
    (execO : Nat → ExecOutcome) (fixO : Nat → String) (now : String) (maxR : Nat) :
    ∀ (fuel : Nat) (ls : LoopState),
      ls.count_tries + fuel = maxR →
      (∀ k, ls.execCalls.length ≤ k → k < ls.execCalls.length + fuel →
        ∃ e, execO k = ExecOutcome.failure e ∧ e ≠ "") →
      (∀ k, ls.fixCalls.length ≤ k → k < ls.fixCalls.length + fuel →
        ∃ q, is_safe_query (clear_llm_response (fixO k)) = Except.ok q) →
      (chatLoop st execO fixO now maxR fuel ls).count_tries = maxR ∧
      (chatLoop st execO fixO now maxR fuel ls).execCalls.length =
        ls.execCalls.length + fuel ∧
      (chatLoop st execO fixO now maxR fuel ls).fixCalls.length =
        ls.fixCalls.length + fuel ∧
      (0 < fuel →
        (∃ e, execO (ls.execCalls.length + fuel - 1) = ExecOutcome.failure e ∧
          (chatLoop st execO fixO now maxR fuel ls).error = some e) ∧
        is_safe_query (clear_llm_response (fixO (ls.fixCalls.length + fuel - 1))) =
          Except.ok (chatLoop st execO fixO now maxR fuel ls).sql_query) := by
  intro fuel
  induction fuel with
  | zero =>
    intro ls hcount hexec hfix
    rw [chatLoop_zero]
    exact ⟨by omega, by omega, by omega, by omega⟩
  | succ fuel ih =>
    intro ls hcount hexec hfix
    have hlt : ls.count_tries < maxR := by omega
    obtain ⟨e, he, hne⟩ := hexec ls.execCalls.length (Nat.le_refl _) (by omega)
    obtain ⟨fq, hfq⟩ := hfix ls.fixCalls.length (Nat.le_refl _) (by omega)
    have hfx := fix_error_message_in_chat hg hg2 hn hn2 e (fixO ls.fixCalls.length) now
    rw [hfq] at hfx
    rw [chatLoop_step_fix_ok st fuel hlt he hne hfx]
    set ls2 : LoopState :=
      { ls with sql_query := fq, rows := none, cols := none, error := some e,
                count_tries := ls.count_tries + 1,
                execCalls := ls.execCalls ++ [ls.sql_query],
                fixCalls := ls.fixCalls ++
                  [⟨e, some (fixUserPrompt now st.schema_text nq e gq), Except.ok fq⟩] }
      with hls2
    have hE2 : ls2.execCalls.length = ls.execCalls.length + 1 := by
      rw [hls2]
      simp
    have hF2 : ls2.fixCalls.length = ls.fixCalls.length + 1 := by
      rw [hls2]
      simp
    have hC2 : ls2.count_tries = ls.count_tries + 1 := rfl
    obtain ⟨ih1, ih2, ih3, ih4⟩ := ih ls2 (by omega)
      (fun k hk1 hk2 => hexec k (by rw [hE2] at hk1; omega) (by rw [hE2] at hk2; omega))
      (fun k hk1 hk2 => hfix k (by rw [hF2] at hk1; omega) (by rw [hF2] at hk2; omega))
    refine ⟨ih1, by omega, by omega, fun _ => ?_⟩
    cases fuel with
    | zero =>
      rw [chatLoop_zero] at ih1 ih2 ih3 ⊢
      constructor
      · refine ⟨e, ?_, rfl⟩
        have hidx : ls.execCalls.length + (0 + 1) - 1 = ls.execCalls.length := by omega
        rw [hidx]
        exact he
      · have hidx : ls.fixCalls.length + (0 + 1) - 1 = ls.fixCalls.length := by omega
        rw [hidx]
        exact hfq
    | succ f =>
      obtain ⟨⟨e2, he2, herr2⟩, hsql2⟩ := ih4 (by omega)
      constructor
      · refine ⟨e2, ?_, herr2⟩
        have hidx : ls.execCalls.length + (f + 1 + 1) - 1 =
            ls2.execCalls.length + (f + 1) - 1 := by omega
        rw [hidx]
        exact he2
      · have hidx : ls.fixCalls.length + (f + 1 + 1) - 1 =
            ls2.fixCalls.length + (f + 1) - 1 := by omega
        rw [hidx]
        exact hsql2

/-! ## A prefix of failing iterations advances the loop -/

theorem chatLoop_fail_advance
    {st : NQLState} {gq nq : String}
    (hg : st.generated_query = some gq) (hg2 : gq ≠ "")
    (hn : st.natural_language_question = some nq) (hn2 : nq ≠ "")
    (execO : Nat → ExecOutcome) (fixO : Nat → String) (now : String) (maxR : Nat) :
    ∀ (m fuel : Nat) (ls : LoopState),
      m ≤ fuel →
      ls.count_tries + fuel = maxR →
      (∀ k, ls.execCalls.length ≤ k → k < ls.execCalls.length + m →
        ∃ e, execO k = ExecOutcome.failure e ∧ e ≠ "") →
      (∀ k, ls.fixCalls.length ≤ k → k < ls.fixCalls.length + m →
        ∃ q, is_safe_query (clear_llm_response (fixO k)) = Except.ok q) →
      ∃ lsm : LoopState,
        chatLoop st execO fixO now maxR fuel ls =
          chatLoop st execO fixO now maxR (fuel - m) lsm ∧
        lsm.count_tries = ls.count_tries + m ∧
        lsm.execCalls.length = ls.execCalls.length + m ∧
        lsm.fixCalls.length = ls.fixCalls.length + m := by
  intro m
  induction m with
  | zero =>
    intro fuel ls _ _ _ _
    exact ⟨ls, by rw [Nat.sub_zero], by omega, by omega, by omega⟩
  | succ m ih =>
    intro fuel ls hmf hcount hexec hfix
    cases fuel with
    | zero => omega
    | succ f =>
      have hlt : ls.count_tries < maxR := by omega
      obtain ⟨e, he, hne⟩ := hexec ls.execCalls.length (Nat.le_refl _) (by omega)
      obtain ⟨fq, hfq⟩ := hfix ls.fixCalls.length (Nat.le_refl _) (by omega)
      have hfx := fix_error_message_in_chat hg hg2 hn hn2 e (fixO ls.fixCalls.length) now
      rw [hfq] at hfx
      rw [chatLoop_step_fix_ok st f hlt he hne hfx]
      set ls2 : LoopState :=
        { ls with sql_query := fq, rows := none, cols := none, error := some e,
                  count_tries := ls.count_tries + 1,
                  execCalls := ls.execCalls ++ [ls.sql_query],
                  fixCalls := ls.fixCalls ++
                    [⟨e, some (fixUserPrompt now st.schema_text nq e gq), Except.ok fq⟩] }
        with hls2
      have hE2 : ls2.execCalls.length = ls.execCalls.length + 1 := by
        rw [hls2]
        simp
      have hF2 : ls2.fixCalls.length = ls.fixCalls.length + 1 := by
        rw [hls2]
        simp
      have hC2 : ls2.count_tries = ls.count_tries + 1 := rfl
      obtain ⟨lsm, ihq, ihc, ihe, ihf⟩ := ih f ls2 (by omega) (by omega)
        (fun k hk1 hk2 => hexec k (by rw [hE2] at hk1; omega) (by rw [hE2] at hk2; omega))
        (fun k hk1 hk2 => hfix k (by rw [hF2] at hk1; omega) (by rw [hF2] at hk2; omega))
      refine ⟨lsm, ?_, by omega, by omega, by omega⟩
      rw [ihq]
      have hsub : f - m = f + 1 - (m + 1) := by omega
      rw [hsub]

/-! ## Invariant: every executed query passed the safety gate -/

theorem chatLoop_execCalls_safe
    (st : NQLState) (execO : Nat → ExecOutcome) (fixO : Nat → String)
    (now : String) (maxR : Nat) :
    ∀ (fuel : Nat) (ls : LoopState),
      safeSql ls.sql_query →
      (∀ q ∈ ls.execCalls, safeSql q) →
      (safeSql (chatLoop st execO fixO now maxR fuel ls).sql_query ∧
        ∀ q ∈ (chatLoop st execO fixO now maxR fuel ls).execCalls, safeSql q) := by
  intro fuel
  induction fuel with
  | zero =>
    intro ls h1 h2
    rw [chatLoop_zero]
    exact ⟨h1, h2⟩
  | succ fuel ih =>
    intro ls h1 h2
    have hmem : ∀ q ∈ ls.execCalls ++ [ls.sql_query], safeSql q := by
      intro q hqm
      rcases List.mem_append.mp hqm with hq1 | hq2
      · exact h2 q hq1
      · rw [List.mem_singleton.mp hq2]
        exact h1
    by_cases hlt : ls.count_tries < maxR
    · cases hoc : execO ls.execCalls.length with
      | success r c =>
        rw [chatLoop_step_success st fixO now fuel hlt hoc]
        exact ⟨h1, hmem⟩
      | failure e =>
        by_cases he0 : e = ""
        · subst he0
          rw [chatLoop_step_empty_error st fixO now fuel hlt hoc]
          exact ⟨h1, hmem⟩
        · have heta : fix_error_message st e none none (fixO ls.fixCalls.length) now =
              (st, (fix_error_message st e none none (fixO ls.fixCalls.length) now).2.1,
                (fix_error_message st e none none (fixO ls.fixCalls.length) now).2.2) := by
            have h0 : fix_error_message st e none none (fixO ls.fixCalls.length) now =
                ((fix_error_message st e none none (fixO ls.fixCalls.length) now).1,
                  (fix_error_message st e none none (fixO ls.fixCalls.length) now).2.1,
                  (fix_error_message st e none none (fixO ls.fixCalls.length) now).2.2) := rfl
            rw [fix_fst] at h0
            exact h0
          cases hres : (fix_error_message st e none none (fixO ls.fixCalls.length) now).2.2 with
          | error m =>
            rw [hres] at heta
            rw [chatLoop_step_fix_fail st fuel hlt hoc he0 heta]
            exact ⟨h1, hmem⟩
          | ok fq =>
            rw [hres] at heta
            rw [chatLoop_step_fix_ok st fuel hlt hoc he0 heta]
            apply ih
            · obtain ⟨_, hp, hs⟩ := is_safe_query_ok (fix_ok_is_gate hres)
              exact ⟨hp, hs⟩
            · exact hmem
    · rw [chatLoop_done st execO fixO now fuel hlt]
      exact ⟨h1, h2⟩

/-! ## Invariant: every repair call uses the freshest error and the stored
raw generation in its prompt -/

theorem chatLoop_fixCalls_fresh
    {st : NQLState} {gq nq : String}
    (hg : st.generated_query = some gq) (hg2 : gq ≠ "")
    (hn : st.natural_language_question = some nq) (hn2 : nq ≠ "")
    (execO : Nat → ExecOutcome) (fixO : Nat → String) (now : String) (maxR : Nat) :
    ∀ (fuel : Nat) (ls : LoopState),
      ls.fixCalls.length = ls.execCalls.length →
      (∀ i, (hi : i < ls.fixCalls.length) →
        ∃ e, execO i = ExecOutcome.failure e ∧ e ≠ "" ∧
          (ls.fixCalls[i]).errorArg = e ∧
          (ls.fixCalls[i]).prompt = some (fixUserPrompt now st.schema_text nq e gq)) →
      ∀ i, (hi : i < (chatLoop st execO fixO now maxR fuel ls).fixCalls.length) →
        ∃ e, execO i = ExecOutcome.failure e ∧ e ≠ "" ∧
          (((chatLoop st execO fixO now maxR fuel ls).fixCalls)[i]).errorArg = e ∧
          (((chatLoop st execO fixO now maxR fuel ls).fixCalls)[i]).prompt =
            some (fixUserPrompt now st.schema_text nq e gq) := by
  intro fuel
  induction fuel with
  | zero =>
    intro ls _ hGood
    rw [chatLoop_zero]
    exact hGood
  | succ fuel ih =>
    intro ls hlen hGood
    by_cases hlt : ls.count_tries < maxR
    · cases hoc : execO ls.execCalls.length with
      | success r c =>
        rw [chatLoop_step_success st fixO now fuel hlt hoc]
        exact hGood
      | failure e =>
        by_cases he0 : e = ""
        · subst he0
          rw [chatLoop_step_empty_error st fixO now fuel hlt hoc]
          exact hGood
        · have hfx := fix_error_message_in_chat hg hg2 hn hn2 e (fixO ls.fixCalls.length) now
          have hGood2 : ∀ (fc : FixCall), fc.errorArg = e →
              fc.prompt = some (fixUserPrompt now st.schema_text nq e gq) →
              ∀ i, (hi : i < (ls.fixCalls ++ [fc]).length) →
              ∃ e2, execO i = ExecOutcome.failure e2 ∧ e2 ≠ "" ∧
                ((ls.fixCalls ++ [fc])[i]).errorArg = e2 ∧
                ((ls.fixCalls ++ [fc])[i]).prompt =
                  some (fixUserPrompt now st.schema_text nq e2 gq) := by
            intro fc hfce hfcp i hi
            have hi2 : i < ls.fixCalls.length + 1 := by
              rw [List.length_append] at hi
              simpa using hi
            rcases Nat.lt_succ_iff_lt_or_eq.mp hi2 with hlt2 | heq2
            · obtain ⟨e2, h1, h2, h3, h4⟩ := hGood i hlt2
              have hidx : (ls.fixCalls ++ [fc])[i] = ls.fixCalls[i] :=
                List.getElem_append_left hlt2
              rw [hidx]
              exact ⟨e2, h1, h2, h3, h4⟩
            · have hidx : (ls.fixCalls ++ [fc])[i] = fc :=
                List.getElem_concat_length _ _ _ heq2 _
              rw [hidx]
              refine ⟨e, ?_, he0, hfce, by rw [hfcp]⟩
              rw [heq2, hlen]
              exact hoc
          cases hgw : is_safe_query (clear_llm_response (fixO ls.fixCalls.length)) with
          | error m =>
            rw [hgw] at hfx
            rw [chatLoop_step_fix_fail st fuel hlt hoc he0 hfx]
            exact hGood2 _ rfl rfl
          | ok fq =>
            rw [hgw] at hfx
            rw [chatLoop_step_fix_ok st fuel hlt hoc he0 hfx]
            apply ih
            · simp [hlen]
            · exact hGood2 _ rfl rfl
    · rw [chatLoop_done st execO fixO now fuel hlt]
      exact hGood

/-! ## Unfolding chat around the generation gate -/

theorem generate_sql_ok {st0 : NQLState} {question genResp sqlq : String}
    (hgen : is_safe_query (clear_llm_response genResp) = Except.ok sqlq) :
    generate_sql st0 question genResp =
      ({ st0 with natural_language_question := some question,
                  generated_query := some genResp }, Except.ok sqlq) := by
  rw [generate_sql, hgen]

theorem generate_sql_error {st0 : NQLState} {question genResp m : String}
    (hgen : is_safe_query (clear_llm_response genResp) = Except.error m) :
    generate_sql st0 question genResp =
      ({ st0 with natural_language_question := some question,
                  generated_query := some genResp }, Except.error m) := by
  rw [generate_sql, hgen]

theorem strData_append (a b : String) : (a ++ b).data = a.data ++ b.data := rfl

theorem retryErrMsg_embeds (m : Nat) (s e : String) :
    (toString m).data <:+: (retryErrMsg m s e).data ∧
    s.data <:+: (retryErrMsg m s e).data ∧
    e.data <:+: (retryErrMsg m s e).data := by
  rw [retryErrMsg]
  refine ⟨⟨"The SQL query could not be executed after ".data,
      (" attempts.\nLast generated query:\n" ++ s ++ "\n\nError:\n" ++ e).data, ?_⟩,
    ⟨("The SQL query could not be executed after " ++ toString m ++
        " attempts.\nLast generated query:\n").data,
      ("\n\nError:\n" ++ e).data, ?_⟩,
    ⟨("The SQL query could not be executed after " ++ toString m ++
        " attempts.\nLast generated query:\n" ++ s ++ "\n\nError:\n").data, [], ?_⟩⟩ <;>
    simp [strData_append, List.append_assoc]

theorem mkBundle_lookup_retries (h : Bool) (s : String)
    (q : Sum String (List (List (String × PyVal)))) (a : String) (n : Nat) :
    (mkBundle h s q a n).lookup "retries" = some (DictVal.vNat n) := by
  cases h <;> rfl

theorem mkBundle_lookup_query (h : Bool) (s : String)
    (q : Sum String (List (List (String × PyVal)))) (a : String) (n : Nat) :
    (mkBundle h s q a n).lookup "query" = some (DictVal.vStr s) := by
  cases h <;> rfl

theorem mkBundle_lookup_time (h : Bool) (s : String)
    (q : Sum String (List (List (String × PyVal)))) (a : String) (n : Nat) :
    (mkBundle h s q a n).lookup "execution_time" = some DictVal.vTime := by
  cases h <;> rfl

theorem mkBundle_true_keys (s : String)
    (q : Sum String (List (List (String × PyVal)))) (a : String) (n : Nat) :
    (mkBundle true s q a n).lookup "result" = some (DictVal.vResults q) ∧
    (mkBundle true s q a n).lookup "answer" = some (DictVal.vStr a) ∧
    (mkBundle true s q a n).lookup "results" = none := ⟨rfl, rfl, rfl⟩

theorem mkBundle_false_keys (s : String)
    (q : Sum String (List (List (String × PyVal)))) (a : String) (n : Nat) :
    (mkBundle false s q a n).lookup "results" = some (DictVal.vResults q) ∧
    (mkBundle false s q a n).lookup "result" = none ∧
    (mkBundle false s q a n).lookup "answer" = none := ⟨rfl, rfl, rfl⟩

theorem chat_gen_ok_eq {st0 : NQLState} {question genResp q0 : String}
    (maxR : Nat) (human : Bool) (execO : Nat → ExecOutcome) (fixO : Nat → String)
    (humanResp now : String)
    (hq0 : is_safe_query (clear_llm_response genResp) = Except.ok q0) :
    chat st0 question maxR human genResp execO fixO humanResp now =
      chatAfterLoop { st0 with natural_language_question := some question,
                                 generated_query := some genResp } maxR human humanResp
        (chatLoop { st0 with natural_language_question := some question,
                             generated_query := some genResp } execO fixO now maxR maxR
          ⟨q0, none, none, none, 0, [], []⟩) := by
  rw [chat, generate_sql_ok hq0]

theorem chat_gen_error_eq {st0 : NQLState} {question genResp m : String}
    (maxR : Nat) (human : Bool) (execO : Nat → ExecOutcome) (fixO : Nat → String)
    (humanResp now : String)
    (hq0 : is_safe_query (clear_llm_response genResp) = Except.error m) :
    chat st0 question maxR human genResp execO fixO humanResp now =
      ⟨Except.error (ChatError.genFailure genFailureMsg),
        { st0 with natural_language_question := some question,
                   generated_query := some genResp }, [], []⟩ := by
  rw [chat, generate_sql_error hq0]

theorem chatAfterLoop_exhausted {maxR : Nat} {ls : LoopState} {e : String}
    (st : NQLState) (human : Bool) (humanResp : String)
    (hc : ls.count_tries = maxR) (he : ls.error = some e) (hne : e ≠ "") :
    chatAfterLoop st maxR human humanResp ls =
      ⟨Except.error (ChatError.retryExhausted (retryErrMsg maxR ls.sql_query e)), st,
        ls.execCalls, ls.fixCalls⟩ := by
  rw [chatAfterLoop,
    if_pos ⟨hc, show pyTruthyOptStr ls.error = true by
      rw [he]; simpa [pyTruthyOptStr] using hne⟩, he]
  rfl

theorem chatAfterLoop_ok {maxR : Nat} {ls : LoopState}
    (st : NQLState) (human : Bool) (humanResp : String)
    (hguard : ¬ (ls.count_tries = maxR ∧ pyTruthyOptStr ls.error))
    (hnlq : pyTruthyOptStr st.natural_language_question = true) :
    chatAfterLoop st maxR human humanResp ls =
      ⟨Except.ok (mkBundle human ls.sql_query (format_results ls.rows ls.cols) humanResp
          ls.count_tries), st, ls.execCalls, ls.fixCalls⟩ := by
  rw [chatAfterLoop, if_neg hguard]
  cases human with
  | false => rw [if_neg (by simp)]
  | true => rw [if_pos rfl, if_pos hnlq]

theorem chatAfterLoop_result_ok {maxR : Nat} {ls : LoopState} {st : NQLState}
    {human : Bool} {humanResp : String} {b : List (String × DictVal)}
    (h : (chatAfterLoop st maxR human humanResp ls).result = Except.ok b) :
    b = mkBundle human ls.sql_query (format_results ls.rows ls.cols) humanResp
      ls.count_tries := by
  rw [chatAfterLoop] at h
  by_cases hguard : ls.count_tries = maxR ∧ pyTruthyOptStr ls.error
  · rw [if_pos hguard] at h
    exact Except.noConfusion h
  · rw [if_neg hguard] at h
    cases human with
    | false =>
      rw [if_neg (by simp)] at h
      have h2 : Except.ok (mkBundle false ls.sql_query (format_results ls.rows ls.cols)
          humanResp ls.count_tries) = Except.ok b := h
      injection h2 with h3
      exact h3.symm
    | true =>
      rw [if_pos rfl] at h
      by_cases hnlq : pyTruthyOptStr st.natural_language_question = true
      · rw [if_pos hnlq] at h
        have h2 : Except.ok (mkBundle true ls.sql_query (format_results ls.rows ls.cols)
            humanResp ls.count_tries) = Except.ok b := h
        injection h2 with h3
        exact h3.symm
      · rw [if_neg hnlq] at h
        exact Except.noConfusion h

theorem chatAfterLoop_execCalls (st : NQLState) (maxR : Nat) (human : Bool)
    (humanResp : String) (ls : LoopState) :
    (chatAfterLoop st maxR human humanResp ls).execCalls = ls.execCalls := by
  rw [chatAfterLoop]
  by_cases h1 : ls.count_tries = maxR ∧ pyTruthyOptStr ls.error
  · rw [if_pos h1]
  · rw [if_neg h1]
    cases human with
    | false => rw [if_neg (by simp)]
    | true =>
      rw [if_pos rfl]
      by_cases h2 : pyTruthyOptStr st.natural_language_question = true
      · rw [if_pos h2]
      · rw [if_neg h2]

theorem chatAfterLoop_fixCalls (st : NQLState) (maxR : Nat) (human : Bool)
    (humanResp : String) (ls : LoopState) :
    (chatAfterLoop st maxR human humanResp ls).fixCalls = ls.fixCalls := by
  rw [chatAfterLoop]
  by_cases h1 : ls.count_tries = maxR ∧ pyTruthyOptStr ls.error
  · rw [if_pos h1]
  · rw [if_neg h1]
    cases human with
    | false => rw [if_neg (by simp)]
    | true =>
      rw [if_pos rfl]
      by_cases h2 : pyTruthyOptStr st.natural_language_question = true
      · rw [if_pos h2]
      · rw [if_neg h2]

/-- C1 (amended): when every execution attempt fails with a (nonempty) error
and every repair call returns a query, `chat` performs exactly `max_retries`
execution calls — never `max_retries + 1` — and raises the exhausted-retries
error; the message embeds the attempt count and the last error text, but the
query it embeds is the result of the final repair (the most recently
generated query, which was never executed), not the last executed query. -/
theorem chat_all_errors_budget
    (st0 : NQLState) (question : String) (maxR : Nat) (human : Bool)
    (genResp : String) (execO : Nat → ExecOutcome) (fixO : Nat → String)
    (humanResp now : String)
    (hmax : 0 < maxR) (hq : question ≠ "")
    (hgen : ∃ q0, is_safe_query (clear_llm_response genResp) = Except.ok q0)
    (hexec : ∀ k, k < maxR → ∃ e, execO k = ExecOutcome.failure e ∧ e ≠ "")
    (hfix : ∀ k, k < maxR →
      ∃ q, is_safe_query (clear_llm_response (fixO k)) = Except.ok q) :
    (chat st0 question maxR human genResp execO fixO humanResp now).execCalls.length =
      maxR ∧
    ∃ e lastSql,
      execO (maxR - 1) = ExecOutcome.failure e ∧ e ≠ "" ∧
      is_safe_query (clear_llm_response (fixO (maxR - 1))) = Except.ok lastSql ∧
      (chat st0 question maxR human genResp execO fixO humanResp now).result =
        Except.error (ChatError.retryExhausted (retryErrMsg maxR lastSql e)) ∧
      e.data <:+: (retryErrMsg maxR lastSql e).data ∧
      (toString maxR).data <:+: (retryErrMsg maxR lastSql e).data ∧
      lastSql.data <:+: (retryErrMsg maxR lastSql e).data := by
  obtain ⟨q0, hq0⟩ := hgen
  have hgne : genResp ≠ "" := gate_ok_resp_ne_empty hq0
  rw [chat_gen_ok_eq maxR human execO fixO humanResp now hq0]
  set st : NQLState := { st0 with natural_language_question := some question,
                                  generated_query := some genResp } with hst
  set ls0 : LoopState := ⟨q0, none, none, none, 0, [], []⟩ with hls0
  have hgq : st.generated_query = some genResp := by rw [hst]
  have hnq : st.natural_language_question = some question := by rw [hst]
  obtain ⟨hcnt, hel, hfl, hlast⟩ := chatLoop_all_fail hgq hgne hnq hq execO fixO now maxR
    maxR ls0 (by rw [hls0]; simp)
    (fun k h1 h2 => hexec k (by rw [hls0] at h2; simpa using h2))
    (fun k h1 h2 => hfix k (by rw [hls0] at h2; simpa using h2))
  obtain ⟨⟨e, he, herr⟩, hsql⟩ := hlast hmax
  rw [show ls0.execCalls.length + maxR - 1 = maxR - 1 from by rw [hls0]; simp] at he
  rw [show ls0.fixCalls.length + maxR - 1 = maxR - 1 from by rw [hls0]; simp] at hsql
  obtain ⟨e2, he2, hne2⟩ := hexec (maxR - 1) (by omega)
  have hee : e = e2 := by
    rw [he] at he2
    exact ExecOutcome.failure.inj he2
  have hne : e ≠ "" := by rw [hee]; exact hne2
  rw [chatAfterLoop_exhausted st human humanResp hcnt herr hne]
  refine ⟨?_, e,
    (chatLoop st execO fixO now maxR maxR ls0).sql_query, he, hne, hsql, rfl, ?_, ?_, ?_⟩
  · show (chatLoop st execO fixO now maxR maxR ls0).execCalls.length = maxR
    rw [hel, hls0]
    simp
  · exact (retryErrMsg_embeds maxR _ e).2.2
  · exact (retryErrMsg_embeds maxR _ e).1
  · exact (retryErrMsg_embeds maxR _ e).2.1

/-- Closed instance of `chat_all_errors_budget` with two always-failing
executions and two successful repairs. -/
theorem chat_all_errors_budget_witness :
    (chat exSt "q" 2 false "SELECT Q0" exExecFail exFixResp "" "now").execCalls.length =
      2 ∧
    ∃ e lastSql,
      exExecFail (2 - 1) = ExecOutcome.failure e ∧ e ≠ "" ∧
      is_safe_query (clear_llm_response (exFixResp (2 - 1))) = Except.ok lastSql ∧
      (chat exSt "q" 2 false "SELECT Q0" exExecFail exFixResp "" "now").result =
        Except.error (ChatError.retryExhausted (retryErrMsg 2 lastSql e)) ∧
      e.data <:+: (retryErrMsg 2 lastSql e).data ∧
      (toString 2).data <:+: (retryErrMsg 2 lastSql e).data ∧
      lastSql.data <:+: (retryErrMsg 2 lastSql e).data :=
  chat_all_errors_budget exSt "q" 2 false "SELECT Q0" exExecFail exFixResp "" "now"
    (by decide) (by decide) ⟨"SELECT Q0", by decide⟩
    (by
      intro k hk
      interval_cases k
      · exact ⟨"E1", rfl, by decide⟩
      · exact ⟨"E2", rfl, by decide⟩)
    (by
      intro k hk
      interval_cases k
      · exact ⟨"SELECT FIX1", by decide⟩
      · exact ⟨"SELECT FIX2", by decide⟩)

/-- C1 counterexample: in the all-errors run below, the queries actually
tried are `"SELECT Q0"` and `"SELECT FIX1"`, but the exhausted-retries
message embeds the final repair output `"SELECT FIX2"` — which was never
executed — and does not contain the last executed query `"SELECT FIX1"`. -/
theorem chat_exhausted_message_cex :
    (chat exSt "q" 2 false "SELECT Q0" exExecFail exFixResp "" "now").execCalls =
      ["SELECT Q0", "SELECT FIX1"] ∧
    (chat exSt "q" 2 false "SELECT Q0" exExecFail exFixResp "" "now").result =
      Except.error (ChatError.retryExhausted (retryErrMsg 2 "SELECT FIX2" "E2")) ∧
    ¬ ("SELECT FIX1".data <:+: (retryErrMsg 2 "SELECT FIX2" "E2").data) ∧
    "SELECT FIX2".data <:+: (retryErrMsg 2 "SELECT FIX2" "E2").data :=
  ⟨by decide, by decide, by decide, by decide⟩

/-- C3: if the k-th execution attempt (1 ≤ k ≤ max_retries) is the first to
return no error, exactly k−1 repair calls occur, chat returns a bundle, and
its `retries` entry equals k−1; the adapter is called exactly k times. -/
theorem chat_success_kth
    (st0 : NQLState) (question : String) (maxR : Nat) (human : Bool)
    (genResp : String) (execO : Nat → ExecOutcome) (fixO : Nat → String)
    (humanResp now : String) (k : Nat)
    (hk1 : 1 ≤ k) (hk2 : k ≤ maxR) (hq : question ≠ "")
    (hgen : ∃ q0, is_safe_query (clear_llm_response genResp) = Except.ok q0)
    (hexec : ∀ j, j < k - 1 → ∃ e, execO j = ExecOutcome.failure e ∧ e ≠ "")
    (hfix : ∀ j, j < k - 1 →
      ∃ q, is_safe_query (clear_llm_response (fixO j)) = Except.ok q)
    (hsucc : ∃ r c, execO (k - 1) = ExecOutcome.success r c) :
    (chat st0 question maxR human genResp execO fixO humanResp now).execCalls.length =
      k ∧
    (chat st0 question maxR human genResp execO fixO humanResp now).fixCalls.length =
      k - 1 ∧
    ∃ b, (chat st0 question maxR human genResp execO fixO humanResp now).result =
        Except.ok b ∧
      b.lookup "retries" = some (DictVal.vNat (k - 1)) := by
  obtain ⟨q0, hq0⟩ := hgen
  obtain ⟨r, c, hrc⟩ := hsucc
  have hgne : genResp ≠ "" := gate_ok_resp_ne_empty hq0
  rw [chat_gen_ok_eq maxR human execO fixO humanResp now hq0]
  set st : NQLState := { st0 with natural_language_question := some question,
                                  generated_query := some genResp } with hst
  set ls0 : LoopState := ⟨q0, none, none, none, 0, [], []⟩ with hls0
  have hgq : st.generated_query = some genResp := by rw [hst]
  have hnq : st.natural_language_question = some question := by rw [hst]
  obtain ⟨lsm, hloopeq, hcm, hem, hfm⟩ := chatLoop_fail_advance hgq hgne hnq hq execO
    fixO now maxR (k - 1) maxR ls0 (by omega) (by rw [hls0]; simp)
    (fun j h1 h2 => hexec j (by rw [hls0] at h2; simpa using h2))
    (fun j h1 h2 => hfix j (by rw [hls0] at h2; simpa using h2))
  rw [hls0] at hcm hem hfm
  simp only [List.length_nil] at hem hfm
  have hcm0 : lsm.count_tries = k - 1 := by simpa using hcm
  have hem0 : lsm.execCalls.length = k - 1 := by simpa using hem
  have hfm0 : lsm.fixCalls.length = k - 1 := by simpa using hfm
  have hfe : maxR - (k - 1) = (maxR - k) + 1 := by omega
  rw [hfe] at hloopeq
  have hlt : lsm.count_tries < maxR := by omega
  have hrc2 : execO lsm.execCalls.length = ExecOutcome.success r c := by
    rw [hem0]
    exact hrc
  rw [hloopeq, chatLoop_step_success st fixO now (maxR - k) hlt hrc2]
  have hguard : ¬ (({ lsm with rows := some r, cols := some c, error := none,
                               execCalls := lsm.execCalls ++ [lsm.sql_query] } :
        LoopState).count_tries = maxR ∧
      pyTruthyOptStr ({ lsm with rows := some r, cols := some c, error := none,
                                 execCalls := lsm.execCalls ++ [lsm.sql_query] } :
        LoopState).error) := by
    intro hcon
    have h2 : pyTruthyOptStr (none : Option String) = true := hcon.2
    simp [pyTruthyOptStr] at h2
  have hnlqT : pyTruthyOptStr st.natural_language_question = true := by
    rw [hnq]
    simpa [pyTruthyOptStr] using hq
  rw [chatAfterLoop_ok st human humanResp hguard hnlqT]
  refine ⟨?_, ?_, _, rfl, ?_⟩
  · show (lsm.execCalls ++ [lsm.sql_query]).length = k
    rw [List.length_append, hem0]
    simp
    omega
  · exact hfm0
  · rw [mkBundle_lookup_retries]
    show some (DictVal.vNat lsm.count_tries) = _
    rw [hcm0]

/-- Closed instance of `chat_success_kth`: the first execution fails, the
second succeeds, so one repair call occurs and `retries` is 1. -/
theorem chat_success_kth_witness :
    (chat exSt "q" 3 false "SELECT Q0" exExecFailThenOk exFixResp "" "now").execCalls.length =
      2 ∧
    (chat exSt "q" 3 false "SELECT Q0" exExecFailThenOk exFixResp "" "now").fixCalls.length =
      2 - 1 ∧
    ∃ b, (chat exSt "q" 3 false "SELECT Q0" exExecFailThenOk exFixResp "" "now").result =
        Except.ok b ∧
      b.lookup "retries" = some (DictVal.vNat (2 - 1)) :=
  chat_success_kth exSt "q" 3 false "SELECT Q0" exExecFailThenOk exFixResp "" "now" 2
    (by decide) (by decide) (by decide) ⟨"SELECT Q0", by decide⟩
    (by
      intro j hj
      interval_cases j
      exact ⟨"E1", rfl, by decide⟩)
    (by
      intro j hj
      interval_cases j
      exact ⟨"SELECT FIX1", by decide⟩)
    ⟨[[PyVal.pyFloat "42.0"]], ["total"], rfl⟩

/-- C5: when an execution attempt fails and the repair call itself fails,
the loop exits immediately without incrementing the counter: no
exhausted-retries error is raised, and chat returns a normal bundle built
from the rows/columns in hand (none after the failed attempt, so the
"No results found." sentinel), with `retries` equal to the repairs that had
succeeded before. -/
theorem chat_repair_failure_graceful
    (st0 : NQLState) (question : String) (maxR : Nat) (human : Bool)
    (genResp : String) (execO : Nat → ExecOutcome) (fixO : Nat → String)
    (humanResp now : String) (j : Nat)
    (hj : j < maxR) (hq : question ≠ "")
    (hgen : ∃ q0, is_safe_query (clear_llm_response genResp) = Except.ok q0)
    (hexec : ∀ i, i < j → ∃ e, execO i = ExecOutcome.failure e ∧ e ≠ "")
    (hfixok : ∀ i, i < j →
      ∃ q, is_safe_query (clear_llm_response (fixO i)) = Except.ok q)
    (hfailj : ∃ e, execO j = ExecOutcome.failure e ∧ e ≠ "")
    (hfixfail : ∃ m, is_safe_query (clear_llm_response (fixO j)) = Except.error m) :
    (chat st0 question maxR human genResp execO fixO humanResp now).execCalls.length =
      j + 1 ∧
    (chat st0 question maxR human genResp execO fixO humanResp now).fixCalls.length =
      j + 1 ∧
    ∃ b sql, (chat st0 question maxR human genResp execO fixO humanResp now).result =
        Except.ok b ∧
      b = mkBundle human sql (Sum.inl "No results found.") humanResp j ∧
      b.lookup "retries" = some (DictVal.vNat j) := by
  obtain ⟨q0, hq0⟩ := hgen
  obtain ⟨e, hej, hnej⟩ := hfailj
  obtain ⟨m, hmj⟩ := hfixfail
  have hgne : genResp ≠ "" := gate_ok_resp_ne_empty hq0
  rw [chat_gen_ok_eq maxR human execO fixO humanResp now hq0]
  set st : NQLState := { st0 with natural_language_question := some question,
                                  generated_query := some genResp } with hst
  set ls0 : LoopState := ⟨q0, none, none, none, 0, [], []⟩ with hls0
  have hgq : st.generated_query = some genResp := by rw [hst]
  have hnq : st.natural_language_question = some question := by rw [hst]
  obtain ⟨lsm, hloopeq, hcm, hem, hfm⟩ := chatLoop_fail_advance hgq hgne hnq hq execO
    fixO now maxR j maxR ls0 (by omega) (by rw [hls0]; simp)
    (fun i h1 h2 => hexec i (by rw [hls0] at h2; simpa using h2))
    (fun i h1 h2 => hfixok i (by rw [hls0] at h2; simpa using h2))
  rw [hls0] at hcm hem hfm
  have hcm0 : lsm.count_tries = j := by simpa using hcm
  have hem0 : lsm.execCalls.length = j := by simpa using hem
  have hfm0 : lsm.fixCalls.length = j := by simpa using hfm
  have hfe : maxR - j = (maxR - j - 1) + 1 := by omega
  rw [hfe] at hloopeq
  have hlt : lsm.count_tries < maxR := by omega
  have hej2 : execO lsm.execCalls.length = ExecOutcome.failure e := by
    rw [hem0]
    exact hej
  have hmj2 : is_safe_query (clear_llm_response (fixO lsm.fixCalls.length)) =
      Except.error m := by
    rw [hfm0]
    exact hmj
  have hfx := fix_error_message_in_chat hgq hgne hnq hq e (fixO lsm.fixCalls.length) now
  rw [hmj2] at hfx
  rw [hloopeq, chatLoop_step_fix_fail st (maxR - j - 1) hlt hej2 hnej hfx]
  have hguard : ¬ (({ lsm with rows := none, cols := none, error := some e,
                               execCalls := lsm.execCalls ++ [lsm.sql_query],
                               fixCalls := lsm.fixCalls ++
                                 [⟨e, some (fixUserPrompt now st.schema_text question e
                                     genResp), Except.error m⟩] } :
        LoopState).count_tries = maxR ∧
      pyTruthyOptStr ({ lsm with rows := none, cols := none, error := some e,
                                 execCalls := lsm.execCalls ++ [lsm.sql_query],
                                 fixCalls := lsm.fixCalls ++
                                   [⟨e, some (fixUserPrompt now st.schema_text question e
                                       genResp), Except.error m⟩] } :
        LoopState).error) := by
    intro hcon
    have hcc : lsm.count_tries = maxR := hcon.1
    omega
  have hnlqT : pyTruthyOptStr st.natural_language_question = true := by
    rw [hnq]
    simpa [pyTruthyOptStr] using hq
  rw [chatAfterLoop_ok st human humanResp hguard hnlqT]
  refine ⟨?_, ?_, _, lsm.sql_query, rfl, ?_, ?_⟩
  · show (lsm.execCalls ++ [lsm.sql_query]).length = j + 1
    rw [List.length_append, hem0]
    simp
  · show (lsm.fixCalls ++
      [(⟨e, some (fixUserPrompt now st.schema_text question e genResp),
        Except.error m⟩ : FixCall)]).length = j + 1
    rw [List.length_append, hfm0]
    simp
  · show mkBundle human lsm.sql_query (format_results none none) humanResp
      lsm.count_tries = _
    rw [hcm0]
    rfl
  · rw [mkBundle_lookup_retries]
    show some (DictVal.vNat lsm.count_tries) = _
    rw [hcm0]

/-- Closed instance of `chat_repair_failure_graceful`: the first execution
fails, the repair response is rejected by the gate, and chat still returns a
bundle with the sentinel results and `retries = 0`. -/
theorem chat_repair_failure_graceful_witness :
    (chat exSt "q" 3 false "SELECT Q0" exExecFail exFixBad "" "now").execCalls.length =
      0 + 1 ∧
    (chat exSt "q" 3 false "SELECT Q0" exExecFail exFixBad "" "now").fixCalls.length =
      0 + 1 ∧
    ∃ b sql, (chat exSt "q" 3 false "SELECT Q0" exExecFail exFixBad "" "now").result =
        Except.ok b ∧
      b = mkBundle false sql (Sum.inl "No results found.") "" 0 ∧
      b.lookup "retries" = some (DictVal.vNat 0) :=
  chat_repair_failure_graceful exSt "q" 3 false "SELECT Q0" exExecFail exFixBad "" "now" 0
    (by decide) (by decide) ⟨"SELECT Q0", by decide⟩
    (by intro i hi; omega)
    (by intro i hi; omega)
    ⟨"E1", rfl, by decide⟩
    ⟨unsafeQueryMsg, by decide⟩

/-- C4: every SQL string `chat` passes to the execution adapter has passed
the safety gate: after trimming it starts (case-insensitively) with
`SELECT`, and it contains no `';'` — chat never executes a non-read or
multi-statement query. -/
theorem chat_executes_only_gated
    (st0 : NQLState) (question : String) (maxR : Nat) (human : Bool)
    (genResp : String) (execO : Nat → ExecOutcome) (fixO : Nat → String)
    (humanResp now : String) :
    ∀ q ∈ (chat st0 question maxR human genResp execO fixO humanResp now).execCalls,
      safeSql q := by
  intro q hqm
  cases hg0 : is_safe_query (clear_llm_response genResp) with
  | error m =>
    rw [chat_gen_error_eq maxR human execO fixO humanResp now hg0] at hqm
    simp at hqm
  | ok q0 =>
    rw [chat_gen_ok_eq maxR human execO fixO humanResp now hg0] at hqm
    set st : NQLState := { st0 with natural_language_question := some question,
                                    generated_query := some genResp } with hst
    set ls0 : LoopState := ⟨q0, none, none, none, 0, [], []⟩ with hls0
    rw [chatAfterLoop_execCalls] at hqm
    have hsafe0 : safeSql q0 := by
      obtain ⟨-, hp, hs⟩ := is_safe_query_ok hg0
      exact ⟨hp, hs⟩
    obtain ⟨-, hall⟩ := chatLoop_execCalls_safe st execO fixO now maxR maxR ls0 hsafe0
      (by intro q2 hq2; rw [hls0] at hq2; simp at hq2)
    exact hall q hqm

/-- Closed instance of `chat_executes_only_gated`: the generated query of a
concrete run is executed and satisfies the safety predicate. -/
theorem chat_executes_only_gated_witness :
    "SELECT Q0" ∈
      (chat exSt "q" 2 false "SELECT Q0" exExecFail exFixResp "" "now").execCalls ∧
    safeSql "SELECT Q0" :=
  ⟨by decide, chat_executes_only_gated exSt "q" 2 false "SELECT Q0" exExecFail exFixResp
    "" "now" "SELECT Q0" (by decide)⟩

theorem mem_data_append_left {x : Char} (a b : String) (h : x ∈ a.data) :
    x ∈ (a ++ b).data := by
  rw [strData_append]
  exact List.mem_append_left _ h

theorem fixUserPrompt_embeds (now schema q e sql : String) :
    e.data <:+: (fixUserPrompt now schema q e sql).data ∧
    (pyStrip sql).data <:+: (fixUserPrompt now schema q e sql).data := by
  constructor
  · have hX : ("\n        Today is: \n        " ++ now ++
        "\n\n        Database Schema:\n        " ++ schema ++
        "\n\n        Question:\n        \"" ++ q ++ "\"\n\n        Error:\n        " ++ e ++
        "\n\n        SQL Query:\n        " ++ sql ++ "\n        ").data =
        ("\n        Today is: \n        " ++ now ++
          "\n\n        Database Schema:\n        " ++ schema ++
          "\n\n        Question:\n        \"" ++ q ++
          "\"\n\n        Error:\n        ").data ++
        e.data ++
        ("\n\n        SQL Query:\n        " ++ sql ++ "\n        ").data := by
      simp [strData_append, List.append_assoc]
    have hd : (fixUserPrompt now schema q e sql).data =
        trimChars (("\n        Today is: \n        " ++ now ++
          "\n\n        Database Schema:\n        " ++ schema ++
          "\n\n        Question:\n        \"" ++ q ++
          "\"\n\n        Error:\n        ").data ++
        e.data ++
        ("\n\n        SQL Query:\n        " ++ sql ++ "\n        ").data) :=
      congrArg trimChars hX
    rw [hd]
    refine infix_trimChars_middle (x := 'T') ?_ (by decide) (y := 'S') ?_ (by decide)
    · exact mem_data_append_left _ _ (mem_data_append_left _ _ (mem_data_append_left _ _
        (mem_data_append_left _ _ (mem_data_append_left _ _
          (mem_data_append_left _ _ (by decide))))))
    · exact mem_data_append_left _ _ (mem_data_append_left _ _ (by decide))
  · have hX2 : ("\n        Today is: \n        " ++ now ++
        "\n\n        Database Schema:\n        " ++ schema ++
        "\n\n        Question:\n        \"" ++ q ++ "\"\n\n        Error:\n        " ++ e ++
        "\n\n        SQL Query:\n        " ++ sql ++ "\n        ").data =
        ("\n        Today is: \n        " ++ now ++
          "\n\n        Database Schema:\n        " ++ schema ++
          "\n\n        Question:\n        \"" ++ q ++ "\"\n\n        Error:\n        " ++
          e ++ "\n\n        SQL Query:\n        ").data ++
        sql.data ++
        ("\n        " : String).data := by
      simp [strData_append, List.append_assoc]
    have hd2 : (fixUserPrompt now schema q e sql).data =
        trimChars (("\n        Today is: \n        " ++ now ++
          "\n\n        Database Schema:\n        " ++ schema ++
          "\n\n        Question:\n        \"" ++ q ++ "\"\n\n        Error:\n        " ++
          e ++ "\n\n        SQL Query:\n        ").data ++
        sql.data ++
        ("\n        " : String).data) :=
      congrArg trimChars hX2
    rw [hd2]
    exact trim_infix_trimChars_left (x := 'T')
      (mem_data_append_left _ _ (mem_data_append_left _ _ (mem_data_append_left _ _
        (mem_data_append_left _ _ (mem_data_append_left _ _ (mem_data_append_left _ _
          (mem_data_append_left _ _ (mem_data_append_left _ _ (by decide)))))))))
      (by decide)

/-- C6 (amended): the user prompt built by each repair call inside chat's
loop embeds the error text of the immediately preceding execution attempt
(never a stale error), but the SQL it embeds is always the stored raw
generation (`self.generated_query`, written once by `generate_sql`) — not
the query whose execution produced the error, which is stale from the
second repair onward. -/
theorem chat_repair_prompt_fresh
    (st0 : NQLState) (question : String) (maxR : Nat) (human : Bool)
    (genResp : String) (execO : Nat → ExecOutcome) (fixO : Nat → String)
    (humanResp now : String)
    (hq : question ≠ "")
    (hgen : ∃ q0, is_safe_query (clear_llm_response genResp) = Except.ok q0) :
    ∀ i, i < (chat st0 question maxR human genResp execO fixO humanResp
        now).fixCalls.length →
      ∃ e, execO i = ExecOutcome.failure e ∧ e ≠ "" ∧
        ((chat st0 question maxR human genResp execO fixO humanResp
          now).fixCalls.getD i defaultFixCall).errorArg = e ∧
        ((chat st0 question maxR human genResp execO fixO humanResp
          now).fixCalls.getD i defaultFixCall).prompt =
          some (fixUserPrompt now st0.schema_text question e genResp) ∧
        e.data <:+: (fixUserPrompt now st0.schema_text question e genResp).data ∧
        (pyStrip genResp).data <:+:
          (fixUserPrompt now st0.schema_text question e genResp).data := by
  obtain ⟨q0, hq0⟩ := hgen
  have hgne : genResp ≠ "" := gate_ok_resp_ne_empty hq0
  rw [chat_gen_ok_eq maxR human execO fixO humanResp now hq0]
  set st : NQLState := { st0 with natural_language_question := some question,
                                  generated_query := some genResp } with hst
  set ls0 : LoopState := ⟨q0, none, none, none, 0, [], []⟩ with hls0
  rw [chatAfterLoop_fixCalls]
  intro i hi
  have hgq : st.generated_query = some genResp := by rw [hst]
  have hnq : st.natural_language_question = some question := by rw [hst]
  obtain ⟨e, h1, h2, h3, h4⟩ := chatLoop_fixCalls_fresh hgq hgne hnq hq execO fixO now
    maxR maxR ls0 rfl
    (by intro i2 hi2; rw [hls0] at hi2; simp at hi2) i hi
  have hemb := fixUserPrompt_embeds now st.schema_text question e genResp
  refine ⟨e, h1, h2, ?_, ?_, hemb.1, hemb.2⟩
  · rw [List.getD_eq_getElem _ _ hi]
    exact h3
  · rw [List.getD_eq_getElem _ _ hi]
    exact h4

/-- Closed instance of `chat_repair_prompt_fresh` at the first repair call
of a concrete run. -/
theorem chat_repair_prompt_fresh_witness :
    0 < (chat exSt "q" 2 false "SELECT Q0" exExecFail exFixResp "" "now").fixCalls.length ∧
    ∃ e, exExecFail 0 = ExecOutcome.failure e ∧ e ≠ "" ∧
      ((chat exSt "q" 2 false "SELECT Q0" exExecFail exFixResp ""
        "now").fixCalls.getD 0 defaultFixCall).errorArg = e ∧
      ((chat exSt "q" 2 false "SELECT Q0" exExecFail exFixResp ""
        "now").fixCalls.getD 0 defaultFixCall).prompt =
        some (fixUserPrompt "now" exSt.schema_text "q" e "SELECT Q0") ∧
      e.data <:+: (fixUserPrompt "now" exSt.schema_text "q" e "SELECT Q0").data ∧
      (pyStrip "SELECT Q0").data <:+:
        (fixUserPrompt "now" exSt.schema_text "q" e "SELECT Q0").data :=
  ⟨by decide, chat_repair_prompt_fresh exSt "q" 2 false "SELECT Q0" exExecFail exFixResp
    "" "now" (by decide) ⟨"SELECT Q0", by decide⟩ 0 (by decide)⟩

/-- C6 counterexample: in the run below, the second error `"E2"` was
produced by executing `"SELECT FIX1"` (the second entry of the execution
trace), yet the second repair prompt embeds the original raw generation
`"SELECT Q0"` and does not contain the failing query `"SELECT FIX1"` at
all — the prompt's SQL is stale. -/
theorem chat_repair_prompt_stale_cex :
    (chat exSt "q" 2 false "SELECT Q0" exExecFail exFixResp "" "now").execCalls =
      ["SELECT Q0", "SELECT FIX1"] ∧
    ((chat exSt "q" 2 false "SELECT Q0" exExecFail exFixResp ""
      "now").fixCalls.getD 1 defaultFixCall).errorArg = "E2" ∧
    ((chat exSt "q" 2 false "SELECT Q0" exExecFail exFixResp ""
      "now").fixCalls.getD 1 defaultFixCall).prompt =
      some (fixUserPrompt "now" "" "q" "E2" "SELECT Q0") ∧
    ¬ ("SELECT FIX1".data <:+: (fixUserPrompt "now" "" "q" "E2" "SELECT Q0").data) ∧
    "SELECT Q0".data <:+: (fixUserPrompt "now" "" "q" "E2" "SELECT Q0").data :=
  ⟨by decide, by decide, by decide, by decide, by decide⟩

/-- C7 counterexample: for the fenced response, `generate_sql` returns the
cleaned-and-gated `"SELECT 1"` but stores the raw response — not the
returned string — in `generated_query`. -/
theorem generate_sql_stores_raw_cex :
    (generate_sql exSt "q" "```sql\nSELECT 1\n```").2 = Except.ok "SELECT 1" ∧
    (generate_sql exSt "q" "```sql\nSELECT 1\n```").1.generated_query =
      some "```sql\nSELECT 1\n```" ∧
    (generate_sql exSt "q" "```sql\nSELECT 1\n```").1.generated_query ≠
      some "SELECT 1" ∧
    (generate_sql exSt "q" "```sql\nSELECT 1\n```").1.natural_language_question =
      some "q" :=
  ⟨by decide, by decide, by decide, by decide⟩

/-- C7 (amended): after every call to `generate_sql` — successful or not —
the stored last-question field equals the question argument and the stored
last-generated-query field equals the RAW backend response (pre-clean,
pre-gate), while the call's result is the cleaned-and-gated response. -/
theorem generate_sql_session_state (st : NQLState) (question resp : String) :
    (generate_sql st question resp).1.natural_language_question = some question ∧
    (generate_sql st question resp).1.generated_query = some resp ∧
    (generate_sql st question resp).2 = is_safe_query (clear_llm_response resp) := by
  rw [generate_sql]
  cases is_safe_query (clear_llm_response resp) with
  | ok q => exact ⟨rfl, rfl, rfl⟩
  | error m => exact ⟨rfl, rfl, rfl⟩

/-- C10: `fix_error_message` never writes the session state: whether it
succeeds, fails for missing context, or fails at the gate, the stored last
question and last generated query are unchanged by the call, so the stored
query remains the one recorded by the original generation. -/
theorem fix_error_message_frame (st : NQLState) (error : String)
    (question sql_query : Option String) (resp now : String) :
    (fix_error_message st error question sql_query resp
        now).1.natural_language_question = st.natural_language_question ∧
    (fix_error_message st error question sql_query resp now).1.generated_query =
      st.generated_query := by
  rw [fix_fst]
  exact ⟨rfl, rfl⟩

/-- C8 (amended): every dictionary chat returns carries the final query
under `"query"`, the elapsed time under `"execution_time"` and the retries
under `"retries"`; the formatted results are under `"results"` when no
human answer was requested, but under `"result"` (singular), next to
`"answer"`, when one was; and the single-row end-to-end scenario yields the
expected bundle. -/
theorem chat_bundle_shape
    (st0 : NQLState) (question : String) (maxR : Nat) (human : Bool)
    (genResp : String) (execO : Nat → ExecOutcome) (fixO : Nat → String)
    (humanResp now : String) :
    (∀ b, (chat st0 question maxR human genResp execO fixO humanResp now).result =
        Except.ok b →
      ∃ sql qres n, b = mkBundle human sql qres humanResp n ∧
        b.lookup "query" = some (DictVal.vStr sql) ∧
        b.lookup "execution_time" = some DictVal.vTime ∧
        b.lookup "retries" = some (DictVal.vNat n) ∧
        (human = true → b.lookup "result" = some (DictVal.vResults qres) ∧
          b.lookup "answer" = some (DictVal.vStr humanResp) ∧
          b.lookup "results" = none) ∧
        (human = false → b.lookup "results" = some (DictVal.vResults qres))) ∧
    (chat exStOrders "what is the total of order 5?" 3 false
        "SELECT total FROM orders WHERE id=5;" exExecOk (fun _ => "") "" "now").result =
      Except.ok [("query", DictVal.vStr "SELECT total FROM orders WHERE id=5"),
        ("results", DictVal.vResults (Sum.inr [[("total", PyVal.pyFloat "42.0")]])),
        ("execution_time", DictVal.vTime), ("retries", DictVal.vNat 0)] := by
  constructor
  · intro b hb
    cases hg0 : is_safe_query (clear_llm_response genResp) with
    | error m =>
      rw [chat_gen_error_eq maxR human execO fixO humanResp now hg0] at hb
      exact Except.noConfusion hb
    | ok q0 =>
      rw [chat_gen_ok_eq maxR human execO fixO humanResp now hg0] at hb
      have hshape := chatAfterLoop_result_ok hb
      refine ⟨_, _, _, hshape, ?_, ?_, ?_, ?_, ?_⟩
      · rw [hshape, mkBundle_lookup_query]
      · rw [hshape, mkBundle_lookup_time]
      · rw [hshape, mkBundle_lookup_retries]
      · intro hh
        subst hh
        rw [hshape]
        exact mkBundle_true_keys _ _ _ _
      · intro hh
        subst hh
        rw [hshape]
        exact (mkBundle_false_keys _ _ _ _).1
  · decide

/-- Closed instance of `chat_bundle_shape`: the bundle of the end-to-end
scenario has the documented key layout. -/
theorem chat_bundle_shape_witness :
    ∃ sql qres n,
      ([("query", DictVal.vStr "SELECT total FROM orders WHERE id=5"),
        ("results", DictVal.vResults (Sum.inr [[("total", PyVal.pyFloat "42.0")]])),
        ("execution_time", DictVal.vTime), ("retries", DictVal.vNat 0)] :
          List (String × DictVal)) = mkBundle false sql qres "" n ∧
      ([("query", DictVal.vStr "SELECT total FROM orders WHERE id=5"),
        ("results", DictVal.vResults (Sum.inr [[("total", PyVal.pyFloat "42.0")]])),
        ("execution_time", DictVal.vTime), ("retries", DictVal.vNat 0)] :
          List (String × DictVal)).lookup "query" = some (DictVal.vStr sql) ∧
      ([("query", DictVal.vStr "SELECT total FROM orders WHERE id=5"),
        ("results", DictVal.vResults (Sum.inr [[("total", PyVal.pyFloat "42.0")]])),
        ("execution_time", DictVal.vTime), ("retries", DictVal.vNat 0)] :
          List (String × DictVal)).lookup "execution_time" = some DictVal.vTime ∧
      ([("query", DictVal.vStr "SELECT total FROM orders WHERE id=5"),
        ("results", DictVal.vResults (Sum.inr [[("total", PyVal.pyFloat "42.0")]])),
        ("execution_time", DictVal.vTime), ("retries", DictVal.vNat 0)] :
          List (String × DictVal)).lookup "retries" = some (DictVal.vNat n) ∧
      (false = true →
        ([("query", DictVal.vStr "SELECT total FROM orders WHERE id=5"),
          ("results", DictVal.vResults (Sum.inr [[("total", PyVal.pyFloat "42.0")]])),
          ("execution_time", DictVal.vTime), ("retries", DictVal.vNat 0)] :
            List (String × DictVal)).lookup "result" = some (DictVal.vResults qres) ∧
        ([("query", DictVal.vStr "SELECT total FROM orders WHERE id=5"),
          ("results", DictVal.vResults (Sum.inr [[("total", PyVal.pyFloat "42.0")]])),
          ("execution_time", DictVal.vTime), ("retries", DictVal.vNat 0)] :
            List (String × DictVal)).lookup "answer" = some (DictVal.vStr "") ∧
        ([("query", DictVal.vStr "SELECT total FROM orders WHERE id=5"),
          ("results", DictVal.vResults (Sum.inr [[("total", PyVal.pyFloat "42.0")]])),
          ("execution_time", DictVal.vTime), ("retries", DictVal.vNat 0)] :
            List (String × DictVal)).lookup "results" = none) ∧
      (false = false →
        ([("query", DictVal.vStr "SELECT total FROM orders WHERE id=5"),
          ("results", DictVal.vResults (Sum.inr [[("total", PyVal.pyFloat "42.0")]])),
          ("execution_time", DictVal.vTime), ("retries", DictVal.vNat 0)] :
            List (String × DictVal)).lookup "results" = some (DictVal.vResults qres)) :=
  (chat_bundle_shape exStOrders "what is the total of order 5?" 3 false
    "SELECT total FROM orders WHERE id=5;" exExecOk (fun _ => "") "" "now").1
    _ (by decide)

/-- C8 counterexample: when a human-readable answer is requested, the
returned dictionary stores the formatted results under the key `"result"`
— there is no `"results"` key at all. -/
theorem chat_bundle_results_key_cex :
    (chat exStOrders "what is the total of order 5?" 3 true
        "SELECT total FROM orders WHERE id=5;" exExecOk (fun _ => "") "the answer"
        "now").result =
      Except.ok [("query", DictVal.vStr "SELECT total FROM orders WHERE id=5"),
        ("result", DictVal.vResults (Sum.inr [[("total", PyVal.pyFloat "42.0")]])),
        ("answer", DictVal.vStr "the answer"), ("execution_time", DictVal.vTime),
        ("retries", DictVal.vNat 0)] ∧
    ([("query", DictVal.vStr "SELECT total FROM orders WHERE id=5"),
      ("result", DictVal.vResults (Sum.inr [[("total", PyVal.pyFloat "42.0")]])),
      ("answer", DictVal.vStr "the answer"), ("execution_time", DictVal.vTime),
      ("retries", DictVal.vNat 0)] :
        List (String × DictVal)).lookup "results" = none ∧
    ([("query", DictVal.vStr "SELECT total FROM orders WHERE id=5"),
      ("result", DictVal.vResults (Sum.inr [[("total", PyVal.pyFloat "42.0")]])),
      ("answer", DictVal.vStr "the answer"), ("execution_time", DictVal.vTime),
      ("retries", DictVal.vNat 0)] :
        List (String × DictVal)).lookup "result" =
      some (DictVal.vResults (Sum.inr [[("total", PyVal.pyFloat "42.0")]])) :=
  ⟨by decide, by decide, by decide⟩

end EasyNQL
